import Mathlib

/-!
Verification development for the diffoscope HTML presenter
(`diffoscope/presenters/html.py`): a shallow embedding of the
unified-diff presenter pipeline (sanitizer, character aligner,
HTML converter, unified-diff scanner, paginated row sink) together
with theorems about its behaviour.

Strings from the diff body are modelled as `List Char`; emitted HTML
is modelled as `String`. Machine integers do not occur (Python has
arbitrary-precision integers); counters that the source can drive
negative (the hunk size counters) are modelled as `Int`.
-/

set_option maxHeartbeats 4000000
set_option maxRecDepth 100000

namespace DiffoscopeHtml

/-- LINESIZE constant of the source: a zero-width breakable space is
added every 20 characters. -/
def LINESIZE : Nat := 20

/-- MAX_LINE_SIZE constant of the source: sides longer than this are
truncated before HTML conversion. -/
def MAX_LINE_SIZE : Nat := 1024

/-- TABSIZE constant of the source. -/
def TABSIZE : Nat := 8

/-- DIFFON sentinel ("\x01"): opens a highlighted run. -/
def DIFFON : Char := Char.ofNat 1

/-- DIFFOFF sentinel ("\x02"): closes a highlighted run. -/
def DIFFOFF : Char := Char.ofNat 2

/-- WORDBREAK characters of the source (" \t;.,/):-"); every one of
them occurs exactly once in the Python string, so the source's
`WORDBREAK.count(c) == 1` test is membership. -/
def isWordBreak (c : Char) : Prop :=
  c = ' ' ∨ c = '\t' ∨ c = ';' ∨ c = '.' ∨ c = ',' ∨ c = '/' ∨ c = ')' ∨ c = ':' ∨ c = '-'

instance (c : Char) : Decidable (isWordBreak c) := by
  unfold isWordBreak
  exact inferInstance

/-- Transliteration of `sane` applied to a single character: code
points below 32 other than tab and newline become ".". -/
def saneChar (c : Char) : Char :=
  if c ≠ '\t' ∧ c ≠ '\n' ∧ c.toNat < 32 then '.' else c

/-- Transliteration of `sane(x)`: the source builds the result by
appending `saneChar` of each character in order. -/
def sane : List Char → List Char
  | [] => []
  | c :: r => saneChar c :: sane r

/-- Cost/backpointer entry of the edit-distance matrix of `linediff`:
`(cost, (father_i, father_j))`, exactly the tuples the source stores. -/
abbrev Cell := Nat × Nat × Nat

/-- Python tuple `<` on the `(cost, (i, j))` entries compared by
`min` in `linediff`: lexicographic on cost, then father row, then
father column. -/
def cellLt (a b : Cell) : Prop :=
  a.1 < b.1 ∨ (a.1 = b.1 ∧ (a.2.1 < b.2.1 ∨ (a.2.1 = b.2.1 ∧ a.2.2 < b.2.2)))

instance (a b : Cell) : Decidable (cellLt a b) := by
  unfold cellLt
  exact inferInstance

/-- Python `min(a, b, c)`: keep the earliest argument among equals.
The three argument tuples of `linediff` always differ in their
coordinate component, so this is the unique minimum under `cellLt`. -/
def pymin3 (a b c : Cell) : Cell :=
  let m := if cellLt b a then b else a
  if cellLt c m then c else m

/-- Entry `d[i][j]` of the `linediff` dynamic-programming matrix:
base row and column point back along the axis; an inner cell is the
Python `min` of the vertical, horizontal and diagonal candidates in
the argument order of the source. Out-of-range character reads
(never performed by `linediff` itself) default to "\x00". -/
def dcell (s t : List Char) : Nat → Nat → Cell
  | 0, 0 => (0, 0, 0)
  | i+1, 0 => (i+1, i, 0)
  | 0, j+1 => (j+1, 0, j)
  | i+1, j+1 =>
    let cost : Nat := if s.getD i '\x00' = t.getD j '\x00' then 0 else 1
    pymin3 ((dcell s t i (j+1)).1 + 1, i, j+1)
           ((dcell s t (i+1) j).1 + 1, i+1, j)
           ((dcell s t i j).1 + cost, i, j)
termination_by i j => (i, j)

/-- Backpointer walk of `linediff`: the list `l` of visited
coordinates from the cell after `(0, 0)` up to `(i, j)`, in forward
order (the source builds it with `insert(0, coord)`). `fuel` bounds
the number of steps; every theorem supplies `fuel ≥ i + j`, which is
enough because each backpointer decreases `i + j`. -/
def backPath (s t : List Char) : Nat → Nat → Nat → List (Nat × Nat)
  | 0, _, _ => []
  | fuel+1, i, j =>
    if i = 0 ∧ j = 0 then []
    else
      let c := dcell s t i j
      backPath s t fuel c.2.1 c.2.2 ++ [(i, j)]

/-- Contribution of one visited coordinate to the two output strings
of `linediff`: insertion, deletion, substitution (cost step 1) or
match, exactly as in the reconstruction loop of the source. -/
def emitStep (s t : List Char) (p : Nat × Nat) : List Char × List Char :=
  let c := dcell s t p.1 p.2
  let fx := c.2.1
  let fy := c.2.2
  let fv := (dcell s t fx fy).1
  if p.1 - fx = 0 ∧ p.2 - fy = 1 then
    ([], [DIFFON, t.getD fy '\x00', DIFFOFF])
  else if p.1 - fx = 1 ∧ p.2 - fy = 0 then
    ([DIFFON, s.getD fx '\x00', DIFFOFF], [])
  else if c.1 - fv = 1 then
    ([DIFFON, s.getD fx '\x00', DIFFOFF], [DIFFON, t.getD fy '\x00', DIFFOFF])
  else
    ([s.getD fx '\x00'], [t.getD fy '\x00'])

/-- Python `str.replace(DIFFOFF + DIFFON, '')`: left-to-right
removal of non-overlapping adjacent DIFFOFF/DIFFON pairs. -/
def replOffOn : List Char → List Char
  | [] => []
  | [c] => [c]
  | a :: b :: r =>
    if a = DIFFOFF ∧ b = DIFFON then replOffOn r
    else a :: replOffOn (b :: r)

/-- Transliteration of `linediff(s, t)`: sanitize both inputs, fill
the DP matrix, walk the backpointers from `(m, n)`, emit the pieces
and collapse adjacent DIFFOFF/DIFFON boundaries. -/
def linediff (s t : List Char) : List Char × List Char :=
  let s := if s.length ≠ 0 then sane s else s
  let t := if t.length ≠ 0 then sane t else t
  let path := backPath s t (s.length + t.length) s.length t.length
  let pieces := path.map (emitStep s t)
  (replOffOn (pieces.map Prod.fst).flatten, replOffOn (pieces.map Prod.snd).flatten)

/-- Removal of the DIFFON/DIFFOFF sentinels from a string, used to
state the alignment-preservation property. -/
def stripMarkers : List Char → List Char
  | [] => []
  | c :: r => if c = DIFFON ∨ c = DIFFOFF then stripMarkers r else c :: stripMarkers r

/-- Python `html.escape(c, quote=True)` restricted to one character:
the five replaced characters produce entities, everything else is
kept. -/
def htmlEscapeChar (c : Char) : String :=
  if c = '&' then "&amp;"
  else if c = '<' then "&lt;"
  else if c = '>' then "&gt;"
  else if c = '"' then "&quot;"
  else if c = Char.ofNat 39 then "&#x27;"
  else String.singleton c

/-- Python `html.escape` over a whole string (the chained `replace`
calls of the library are equivalent to the character-wise map). -/
def htmlEscape (s : String) : String :=
  String.join (s.data.map htmlEscapeChar)

/-- Lowercase hex digit. -/
def hexDigit (n : Nat) : Char :=
  if n < 10 then Char.ofNat (48 + n) else Char.ofNat (87 + n)

/-- Python `"%x" % n` for the code points below 32 met by `convert`:
one or two lowercase hex digits without padding. -/
def hexBelow32 (n : Nat) : String :=
  if n < 16 then String.singleton (hexDigit n)
  else String.mk [hexDigit (n / 16), hexDigit (n % 16)]

/-- Loop body of `convert(s, ponct, tag)` carrying the running
column counter `i`: DIFFON/DIFFOFF become tags, tab/space/newline
get visible punctuation when `ponct` is set, remaining control
characters become `<em>\xNN</em>`, everything else is HTML-escaped;
a zero-width space is emitted and the counter reset on word-break
characters and when the counter exceeds LINESIZE. -/
def convertStep (ponct : Bool) (tag : String) (c : Char) (i : Nat) : String × Nat :=
  let pi : String × Nat :=
    if c = DIFFON then ("<" ++ tag ++ ">", i)
    else if c = DIFFOFF then ("</" ++ tag ++ ">", i)
    else if c = '\t' ∧ ponct = true then
      let n := TABSIZE - i % TABSIZE
      let n := if n = 0 then TABSIZE else n
      ("<span class=\"diffponct\">\xbb</span>" ++ String.mk (List.replicate (n - 1) '\xa0'), i)
    else if c = ' ' ∧ ponct = true then
      ("<span class=\"diffponct\">\xb7</span>", i)
    else if c = '\n' ∧ ponct = true then
      ("<br/><span class=\"diffponct\">\\</span>", i)
    else if c.toNat < 32 then
      let conv := "\\x" ++ hexBelow32 c.toNat
      ("<em>" ++ conv ++ "</em>", i + conv.length)
    else (htmlEscapeChar c, i + 1)
  let pi : String × Nat := if isWordBreak c then (pi.1 ++ "\u200b", 0) else pi
  if pi.2 > LINESIZE then (pi.1 ++ "\u200b", 0) else pi

/-- Character loop of `convert`: fold `convertStep` over the input,
threading the column counter. -/
def convertAux (ponct : Bool) (tag : String) : List Char → Nat → String
  | [], _ => ""
  | c :: r, i =>
    (convertStep ponct tag c i).1 ++ convertAux ponct tag r (convertStep ponct tag c i).2

/-- Transliteration of `convert(s, ponct, tag)`. -/
def convert (s : List Char) (ponct : Bool) (tag : String) : String :=
  convertAux ponct tag s 0

/-- ASCII decimal digit, the characters matched by `\d` on the diff
lines met in practice. -/
def isDig (c : Char) : Prop := '0' ≤ c ∧ c ≤ '9'

instance (c : Char) : Decidable (isDig c) := by
  unfold isDig
  exact inferInstance

/-- Numeric value of a captured digit group (`int(x)` in the source). -/
def parseNatDigits (ds : List Char) : Nat :=
  ds.foldl (fun n c => n * 10 + (c.toNat - 48)) 0

/-- Python `re.match` end anchor `$`: the remainder is empty or a
single final newline. -/
def matchEnd (s : List Char) : Prop := s = [] ∨ s = ['\n']

instance (s : List Char) : Decidable (matchEnd s) := by
  unfold matchEnd
  exact inferInstance

/-- Match of `^\[ (\d+) lines removed \]$` returning the captured
count. -/
def linesRemovedN (s : List Char) : Option Nat :=
  match s with
  | '[' :: ' ' :: rest =>
    let ds := rest.takeWhile (fun c => decide (isDig c))
    let tl := rest.dropWhile (fun c => decide (isDig c))
    if ds ≠ [] ∧ (tl = " lines removed ]".data ∨ tl = " lines removed ]".data ++ ['\n']) then
      some (parseNatDigits ds)
    else none
  | _ => none

/-- Match of `^\+\[ (\d+) lines removed \]$`. -/
def plusLinesRemoved (l : List Char) : Option Nat :=
  match l with
  | '+' :: rest => linesRemovedN rest
  | _ => none

/-- Match of `^-\[ (\d+) lines removed \]$`. -/
def minusLinesRemoved (l : List Char) : Option Nat :=
  match l with
  | '-' :: rest => linesRemovedN rest
  | _ => none

/-- Match of `@@ -(\d+),?(\d*) \+(\d+),?(\d*)` (anchored by
`re.match`), producing `(off1, size1, off2, size2)` with the empty
size groups already defaulted to 1 as by `x=="" and 1 or int(x)`.
The regex engine's backtracking never finds an alternative split,
so the direct greedy parse below is equivalent. -/
def parseHunkHeader (l : List Char) : Option (Nat × Nat × Nat × Nat) :=
  match l with
  | '@' :: '@' :: ' ' :: '-' :: r1 =>
    let d1 := r1.takeWhile (fun c => decide (isDig c))
    let r2 := r1.dropWhile (fun c => decide (isDig c))
    if d1 = [] then none else
    let p2 : List Char × List Char :=
      match r2 with
      | ',' :: rr => (rr.takeWhile (fun c => decide (isDig c)), rr.dropWhile (fun c => decide (isDig c)))
      | _ => ([], r2)
    match p2.2 with
    | ' ' :: '+' :: r4 =>
      let d3 := r4.takeWhile (fun c => decide (isDig c))
      let r5 := r4.dropWhile (fun c => decide (isDig c))
      if d3 = [] then none else
      let p4 : List Char :=
        match r5 with
        | ',' :: rr => rr.takeWhile (fun c => decide (isDig c))
        | _ => []
      some (parseNatDigits d1,
            (if p2.1 = [] then 1 else parseNatDigits p2.1),
            parseNatDigits d3,
            (if p4 = [] then 1 else parseNatDigits p4))
    | _ => none
  | _ => none

/-- Python `str.splitlines()` restricted to "\n" separators (the
only line terminator produced by the differ): no trailing empty
line for a trailing newline. -/
def splitLines : List Char → List (List Char)
  | [] => []
  | c :: r =>
    match splitLines r with
    | [] => if c = '\n' then [[]] else [[c]]
    | l :: ls => if c = '\n' then [] :: l :: ls else (c :: l) :: ls

/-- Exceptions of the presenter contract: `PrintLimitReached` and
`DiffBlockLimitReached`. -/
inductive RenderExc
  | printLimit
  | blockLimit
deriving DecidableEq, Repr

/-- Configuration options read from `Config()` by the row sink. The
directory-mode hard-cap multiplier `max_diff_block_lines_html_dir_ratio`
is modelled as a natural-number multiplier. -/
structure HtmlConfig where
  maxReportSize : Nat
  maxReportChildSize : Nat
  maxDiffBlockLines : Nat
  maxDiffBlockLinesParent : Nat
  maxDiffBlockLinesDirFactor : Nat
deriving DecidableEq, Repr

/-- Rotation parameters `(directory, mainname, css_url)` of directory
mode. The directory itself and the css url only influence the file
system and the child page header, so the model carries `mainname`
(the MD5 hex of the diff text in the source) plus the two
runtime-dependent texts written on child-page open and close
(`HEADER % {...}` depends on `sys.argv` and the favicon, `FOOTER`
on the version string). -/
structure RotParams where
  mainname : String
  headerText : String
  footerText : String
deriving DecidableEq, Repr

/-- Mutable state of one unified-diff render: the scanner globals
(`buf`, `add_cpt`, `del_cpt`, `line1`, `line2`, hunk fields) and the
row-sink globals (`spl_rows`, `spl_current_page`, the limited print
function's `char_count`, the current child's `bytes_written`) plus
the ordered list of strings written so far (primary stream and child
pages in write order). -/
structure RenderState where
  buf : List (Option (List Char) × Option (List Char))
  addCpt : Nat
  delCpt : Nat
  line1 : Nat
  line2 : Nat
  hunkOff1 : Nat
  hunkSize1 : Int
  hunkOff2 : Nat
  hunkSize2 : Int
  rows : Nat
  currentPage : Nat
  parentChars : Nat
  childBytes : Nat
  output : List String
deriving DecidableEq, Repr

/-- A step result: the state after the step plus the exception it
raised, if any (Python exceptions leave all global mutations in
place, so the state travels with the exception). -/
abbrev RRes := RenderState × Option RenderExc

/-- Sequencing that stops at the first raised exception. -/
def rbind (r : RRes) (f : RenderState → RRes) : RRes :=
  match r with
  | (st, none) => f st
  | (st, some e) => (st, some e)

/-- Result of one call of the closure made by
`create_limited_print_func`: the text is printed first, the
cumulative character count grows by its length, and
`PrintLimitReached` is raised when the count reaches the page size
unless the write is forced. -/
structure LimitedPrintResult where
  printed : String
  charCount : Nat
  raised : Bool
deriving DecidableEq, Repr

/-- Transliteration of the closure of `create_limited_print_func`. -/
def limitedPrintFunc (maxPageSize : Nat) (charCount : Nat) (s : String) (force : Bool) : LimitedPrintResult :=
  { printed := s
    charCount := charCount + s.length
    raised := !force && decide (charCount + s.length ≥ maxPageSize) }

/-- Transliteration of the recording print function of
`spl_file_printer`: print and count, never raise. -/
def recordingPrintFunc (bytesWritten : Nat) (s : String) (_force : Bool) : String × Nat :=
  (s, bytesWritten + s.length)

/-- One `spl_print_func` call: on the parent page (`current_page = 0`)
this is the limited primary print function; after rotating onto a
child page it is the child's recording print function. -/
def splWrite (cfg : HtmlConfig) (st : RenderState) (s : String) (force : Bool) : RRes :=
  if st.currentPage = 0 then
    let r := limitedPrintFunc cfg.maxReportSize st.parentChars s force
    ({ st with output := st.output ++ [r.printed], parentChars := r.charCount },
     if r.raised then some .printLimit else none)
  else
    let r := recordingPrintFunc st.childBytes s force
    ({ st with output := st.output ++ [r.1], childBytes := r.2 }, none)

/-- UD_TABLE_HEADER literal of the source. -/
def udTableHeaderStr : String :=
  "<table class=\"diff\">\n<colgroup><col style=\"width: 3em;\"/><col style=\"99%\"/>\n<col style=\"width: 3em;\"/><col style=\"99%\"/></colgroup>\n"

/-- UD_TABLE_FOOTER literal of the source with its two `%` fields
substituted. -/
def udTableFooterStr (filename text : String) : String :=
  "<tr class=\"ondemand\"><td colspan=\"4\">\n... <a href=\"" ++ filename ++ "\">" ++ text ++ "</a> ...\n</td></tr>\n</table>\n"

/-- Error row written when `DiffBlockLimitReached` is handled. The
`(%.2f%%)` percentage inserted by the source between the byte counts
and "of diff not shown" is floating-point formatting of the same
fraction `bytes_left/total` and is not modelled; both integers are. -/
def blockLimitErrorRow (bytesLeft total : Int) : String :=
  "<tr class=\x27error\x27><td colspan=\x274\x27>Max diff block lines reached; " ++ toString bytesLeft ++ "/" ++ toString total ++ " bytes of diff not shown.</td></tr>"

/-- Error row written when `PrintLimitReached` is handled inside the
unified-diff table renderer. -/
def maxOutputErrorRow : String :=
  "<tr class=\x27error\x27><td colspan=\x274\x27>Max output size reached.</td></tr>"

/-- Transliteration of the rotation tail of `row_was_output`:
advance the page counter, close the previous child (ondemand footer
plus document footer) when one exists, then open the next child page
(its recording print function restarts at zero bytes) and write the
document header and the diff-table header to it. -/
def rotate (cfg : HtmlConfig) (rp : RotParams) (st : RenderState) : RRes :=
  let st := { st with currentPage := st.currentPage + 1 }
  let filename := rp.mainname ++ "-" ++ toString st.currentPage ++ ".html"
  let closed : RRes :=
    if st.currentPage > 1 then
      rbind (splWrite cfg st (udTableFooterStr (htmlEscape filename) "load diff") true) fun st =>
        splWrite cfg st rp.footerText true
    else (st, none)
  rbind closed fun st =>
  let st := { st with childBytes := 0 }
  rbind (splWrite cfg st rp.headerText false) fun st =>
  splWrite cfg st udTableHeaderStr false

/-- Transliteration of `row_was_output`: count the completed row;
in single-file mode raise `DiffBlockLimitReached` at the row cap; in
directory mode raise at the hard cap, otherwise stay on the current
page while its budget lasts and rotate when it is exhausted. -/
def rowWasOutput (cfg : HtmlConfig) (rotp : Option RotParams) (st : RenderState) : RRes :=
  let st := { st with rows := st.rows + 1 }
  match rotp with
  | none =>
    if st.rows ≥ cfg.maxDiffBlockLines then (st, some .blockLimit) else (st, none)
  | some rp =>
    if st.rows ≥ cfg.maxDiffBlockLinesDirFactor * cfg.maxDiffBlockLines then (st, some .blockLimit)
    else if st.currentPage = 0 then
      if st.rows < cfg.maxDiffBlockLinesParent then (st, none) else rotate cfg rp st
    else
      if st.childBytes < cfg.maxReportChildSize then (st, none) else rotate cfg rp st

/-- Truncation applied by `output_line` to each present side before
rendering: at most MAX_LINE_SIZE characters plus a scissors mark. -/
def truncLine (v : List Char) : List Char :=
  if v.length > MAX_LINE_SIZE then v.take MAX_LINE_SIZE ++ " ✂".data else v

/-- Python `s.endswith('lines removed ]')`. -/
def endsWithLinesRemoved (v : List Char) : Bool :=
  "lines removed ]".data.isSuffixOf v

/-- Line-number advancement of `output_line` for one side: the
placeholder pattern advances by its captured count, any other
present non-empty side by one. -/
def lineAdvance (orig : Option (List Char)) (n : Nat) : Nat :=
  match orig with
  | none => n
  | some v =>
    if v = [] then n
    else
      match linesRemovedN v with
      | some k => n + k
      | none => n + 1

/-- Cell writes of `output_line` for one side: line-number column
(suppressed under `has_internal_linenos`), converted content, or a
non-breaking-space filler cell for an absent side. -/
def sideWrites (cfg : HtmlConfig) (hil : Bool) (tag : String) (lineNo : Nat) (sv : Option (List Char)) (st : RenderState) : RRes :=
  if sv ≠ none ∧ sv ≠ some [] then
    rbind
      (if hil then splWrite cfg st "<td colspan=\"2\" class=\"diffpresent\">" false
       else
         rbind (splWrite cfg st ("<td class=\"diffline\">" ++ toString lineNo ++ " </td>") false) fun st =>
           splWrite cfg st "<td class=\"diffpresent\">" false) fun st =>
    rbind (splWrite cfg st (convert (sv.getD []) true tag) false) fun st =>
    splWrite cfg st "</td>" false
  else
    splWrite cfg st "<td colspan=\"2\">\xa0</td>" false

/-- Row-open and cell writes of `output_line` (the part of the row
before its `finally` block): the `<tr>` open tag, then the cells of
each side. -/
def outputRowBody (cfg : HtmlConfig) (hil : Bool) (typeName : String)
    (sp : Option (List Char) × Option (List Char)) (st : RenderState) : RRes :=
  rbind (splWrite cfg st ("<tr class=\"diff" ++ typeName ++ "\">") false) fun st =>
  rbind (sideWrites cfg hil "del" st.line1 sp.1 st) fun st =>
  sideWrites cfg hil "ins" st.line2 sp.2 st

/-- The `finally` block of `output_line` and the line-counter
advancement: close the row with a forced write, account the row
(an exception raised here replaces a pending one, as in Python),
and advance `line1`/`line2` only when no exception escapes. -/
def outputLineFinish (cfg : HtmlConfig) (rotp : Option RotParams)
    (orig1 orig2 : Option (List Char)) (body : RRes) : RRes :=
  let fin1 := splWrite cfg body.1 "</tr>\n" true
  let fin2 := rowWasOutput cfg rotp fin1.1
  let e := match fin2.2 with
    | some e2 => some e2
    | none => body.2
  match e with
  | some e => (fin2.1, some e)
  | none =>
    ({ fin2.1 with line1 := lineAdvance orig1 fin2.1.line1,
                   line2 := lineAdvance orig2 fin2.1.line2 }, none)

/-- Transliteration of `output_line(s1, s2)`: truncate, classify,
align changed rows, write the row, then close it and account it via
the `finally` semantics of `outputLineFinish`. -/
def outputLine (cfg : HtmlConfig) (rotp : Option RotParams) (hil : Bool) (st : RenderState) (os1 os2 : Option (List Char)) : RRes :=
  let orig1 := os1
  let orig2 := os2
  let s1 := os1.map truncLine
  let s2 := os2.map truncLine
  let cls : Nat :=
    if s1 = none ∧ s2 = none then 0
    else if s1 = some [] ∧ s2 = some [] then 0
    else if s1 = none ∨ s1 = some [] then 1
    else if s2 = none ∨ s2 = some [] then 2
    else if orig1 = orig2 ∧ endsWithLinesRemoved (s1.getD []) = false ∧ endsWithLinesRemoved (s2.getD []) = false then 0
    else 3
  let typeName : String :=
    if cls = 0 then "unmodified" else if cls = 1 then "added" else if cls = 2 then "deleted" else "changed"
  let sp : Option (List Char) × Option (List Char) :=
    if cls = 3 then
      let ab := linediff (s1.getD []) (s2.getD [])
      (some ab.1, some ab.2)
    else (s1, s2)
  outputLineFinish cfg rotp orig1 orig2 (outputRowBody cfg hil typeName sp st)

def outputHunk (cfg : HtmlConfig) (rotp : Option RotParams) (st : RenderState) : RRes :=
  rbind (splWrite cfg st ("<tr class=\"diffhunk\"><td colspan=\"2\">Offset " ++ toString st.hunkOff1 ++ ", " ++ toString st.hunkSize1 ++ " lines modified</td>") false) fun st =>
  rbind (splWrite cfg st ("<td colspan=\"2\">Offset " ++ toString st.hunkOff2 ++ ", " ++ toString st.hunkSize2 ++ " lines modified</td></tr>\n") false) fun st =>
  rowWasOutput cfg rotp st

/-- Loop of `empty_buffer` over the pending pairs. -/
def outputLines (cfg : HtmlConfig) (rotp : Option RotParams) (hil : Bool) : RenderState → List (Option (List Char) × Option (List Char)) → RRes
  | st, [] => (st, none)
  | st, p :: ps =>
    match outputLine cfg rotp hil st p.1 p.2 with
    | (st, none) => outputLines cfg rotp hil st ps
    | (st, some e) => (st, some e)

/-- Transliteration of `empty_buffer`: emit the buffered pairs
directly when one side is absent throughout, otherwise compress the
two sides index-wise; reset the counters and the buffer only after
the loop completed without raising. -/
def emptyBuffer (cfg : HtmlConfig) (rotp : Option RotParams) (hil : Bool) (st : RenderState) : RRes :=
  let pairs :=
    if st.delCpt = 0 ∨ st.addCpt = 0 then st.buf
    else
      let l0 := st.buf.filterMap Prod.fst
      let l1 := st.buf.filterMap Prod.snd
      let maxLen := if l0.length > l1.length then l0.length else l1.length
      (List.range maxLen).map fun i => (some (l0.getD i []), some (l1.getD i []))
  rbind (outputLines cfg rotp hil st pairs) fun st =>
    ({ st with addCpt := 0, delCpt := 0, buf := [] }, none)

/-- The `^\\ No newline` handler of the scanner: append the message
to the buffered side whose hunk counter is exhausted. On an empty
buffer the source would raise IndexError and on an absent side
TypeError (both noted as undefined behaviour by the design notes);
the model leaves the state unchanged in those unreachable-by-claims
cases. -/
def noNewlineAttach (st : RenderState) (l : List Char) : RenderState :=
  match st.buf.getLast? with
  | none => st
  | some pr =>
    let msg := l.drop 2
    if st.hunkSize2 = 0 then
      match pr.2 with
      | some bv => { st with buf := st.buf.dropLast ++ [(pr.1, some (bv ++ '\n' :: msg))] }
      | none => st
    else
      match pr.1 with
      | some av => { st with buf := st.buf.dropLast ++ [(some (av ++ '\n' :: msg), pr.2)] }
      | none => st

/-- Transliteration of the per-line dispatch of
`output_unified_diff_table` (the loop body over `splitlines`). The
bracket-prefixed branch has no `continue` in the source, so after
writing its cell fragment the line falls through to the remaining
checks, where it can only trigger a further (vacuous) flush. -/
def scanLine (cfg : HtmlConfig) (rotp : Option RotParams) (hil : Bool) (st : RenderState) (l : List Char) : RRes :=
  if "--- ".data.isPrefixOf l then emptyBuffer cfg rotp hil st
  else if "+++ ".data.isPrefixOf l then emptyBuffer cfg rotp hil st
  else
    match parseHunkHeader l with
    | some q =>
      rbind (emptyBuffer cfg rotp hil st) fun st =>
        let st := { st with hunkOff1 := q.1, hunkSize1 := (q.2.1 : Int),
                            hunkOff2 := q.2.2.1, hunkSize2 := (q.2.2.2 : Int),
                            line1 := q.1, line2 := q.2.2.1 }
        outputHunk cfg rotp st
    | none =>
      let afterBracket : RRes :=
        if l.head? = some '[' then
          rbind (emptyBuffer cfg rotp hil st) fun st =>
            splWrite cfg st ("<td colspan=\"2\">" ++ String.mk l ++ "</td>\n") false
        else (st, none)
      rbind afterBracket fun st =>
      if "\\ No newline".data.isPrefixOf l then (noNewlineAttach st l, none)
      else if st.hunkSize1 ≤ 0 ∧ st.hunkSize2 ≤ 0 then emptyBuffer cfg rotp hil st
      else
        match plusLinesRemoved l with
        | some n =>
          ({ st with addCpt := st.addCpt + n, hunkSize2 := st.hunkSize2 - n,
                     buf := st.buf ++ [(none, some l.tail)] }, none)
        | none =>
          if l.head? = some '+' then
            ({ st with addCpt := st.addCpt + 1, hunkSize2 := st.hunkSize2 - 1,
                       buf := st.buf ++ [(none, some l.tail)] }, none)
          else
            match minusLinesRemoved l with
            | some n =>
              ({ st with delCpt := st.delCpt + n, hunkSize1 := st.hunkSize1 - n,
                         buf := st.buf ++ [(some l.tail, none)] }, none)
            | none =>
              if l.head? = some '-' then
                ({ st with delCpt := st.delCpt + 1, hunkSize1 := st.hunkSize1 - 1,
                           buf := st.buf ++ [(some l.tail, none)] }, none)
              else if l.head? = some ' ' ∧ st.hunkSize1 ≠ 0 ∧ st.hunkSize2 ≠ 0 then
                rbind (emptyBuffer cfg rotp hil st) fun st =>
                  ({ st with hunkSize1 := st.hunkSize1 - 1, hunkSize2 := st.hunkSize2 - 1,
                             buf := st.buf ++ [(l.tail, l.tail)].map (fun p => (some p.1, some p.2)) }, none)
              else emptyBuffer cfg rotp hil st

/-- Scanner loop over the diff lines, accumulating
`bytes_processed` (each line's length plus one for its newline). -/
def scanAll (cfg : HtmlConfig) (rotp : Option RotParams) (hil : Bool) : List (List Char) → RenderState → Nat → RenderState × Nat × Option RenderExc
  | [], st, bp => (st, bp, none)
  | l :: ls, st, bp =>
    let bp := bp + l.length + 1
    match scanLine cfg rotp hil st l with
    | (st, none) => scanAll cfg rotp hil ls st bp
    | (st, some e) => (st, bp, some e)

/-- Outcome of one `output_unified_diff_table` call: a normal return
(`True` in the source), a handled `DiffBlockLimitReached`
(`False`), a handled-and-reraised `PrintLimitReached`, the failure
of the `assert not spl_had_entered_child()` in that handler, or a
`PrintLimitReached` escaping from the table-header write that sits
before the `try`. -/
inductive TableOutcome
  | completed
  | truncated
  | printLimitHit
  | assertionFailed
  | headerLimitHit
deriving DecidableEq, Repr

/-- Python `spl_had_entered_child()`: rotation parameters are set
and the current page is a child page. -/
def hadEnteredChild (rotp : Option RotParams) (st : RenderState) : Prop :=
  rotp.isSome ∧ st.currentPage > 0

instance (rotp : Option RotParams) (st : RenderState) : Decidable (hadEnteredChild rotp st) := by
  unfold hadEnteredChild
  exact inferInstance

/-- Transliteration of `output_unified_diff_table`: write the table
header, scan all lines, flush once more, and handle the two limit
exceptions — `DiffBlockLimitReached` writes the error row with the
remaining byte count and returns `False`, `PrintLimitReached`
asserts that no child page was entered, writes its error row and
re-raises; the `finally` closes the table in every handled path. -/
def outputUnifiedDiffTable (cfg : HtmlConfig) (rotp : Option RotParams) (hil : Bool) (ud : List Char) (st : RenderState) : RenderState × TableOutcome :=
  match splWrite cfg st udTableHeaderStr false with
  | (st, some _) => (st, .headerLimitHit)
  | (st, none) =>
    let r := scanAll cfg rotp hil (splitLines ud) st 0
    let afterLoop : RenderState × Nat × Option RenderExc :=
      match r with
      | (st, bp, none) =>
        match emptyBuffer cfg rotp hil st with
        | (st, none) => (st, bp, none)
        | (st, some e) => (st, bp, some e)
      | other => other
    match afterLoop with
    | (st, _, none) =>
      ((splWrite cfg st "</table>" true).1, .completed)
    | (st, bp, some .blockLimit) =>
      let total : Int := ud.length
      let bytesLeft : Int := total - bp
      let st := (splWrite cfg st (blockLimitErrorRow bytesLeft total) true).1
      ((splWrite cfg st "</table>" true).1, .truncated)
    | (st, _, some .printLimit) =>
      if hadEnteredChild rotp st then
        ((splWrite cfg st "</table>" true).1, .assertionFailed)
      else
        let st := (splWrite cfg st maxOutputErrorRow true).1
        ((splWrite cfg st "</table>" true).1, .printLimitHit)

/-- Fresh render state, as set up by `new_unified_diff` plus a zero
`char_count` on a fresh limited print function. -/
def initRenderState : RenderState :=
  { buf := [], addCpt := 0, delCpt := 0, line1 := 0, line2 := 0,
    hunkOff1 := 0, hunkSize1 := 0, hunkOff2 := 0, hunkSize2 := 0,
    rows := 0, currentPage := 0, parentChars := 0, childBytes := 0, output := [] }

/-- Transliteration of `new_unified_diff`: reset every scanner and
row-sink global; the limited print function's cumulative character
count and the text already printed are not globals and persist. -/
def newUnifiedDiff (st : RenderState) : RenderState :=
  { initRenderState with parentChars := st.parentChars, output := st.output }

/-- One whole unified-diff table render started on a fresh state
whose limited print function has already counted `pc` characters. -/
def renderTable (cfg : HtmlConfig) (rotp : Option RotParams) (hil : Bool) (ud : String) (pc : Nat) : RenderState × TableOutcome :=
  outputUnifiedDiffTable cfg rotp hil ud.data { initRenderState with parentChars := pc }

/-- Exceptions that can cross the document-level recursion:
`PrintLimitReached`, and the `AssertionError` of the
`output_unified_diff_table` print-limit handler. -/
inductive DocExc
  | printLimit
  | assertionError
deriving DecidableEq, Repr

/-- A document-level step result. -/
abbrev DocRes := RenderState × Option DocExc

/-- Sequencing of document-level steps. -/
def dbind (r : DocRes) (f : RenderState → DocRes) : DocRes :=
  match r with
  | (st, none) => f st
  | (st, some e) => (st, some e)

/-- A write through the limited primary print function itself (the
`print_func` argument threaded through `output_difference`), used by
the document shell irrespective of the current child page. -/
def docWrite (cfg : HtmlConfig) (st : RenderState) (s : String) (force : Bool) : DocRes :=
  let r := limitedPrintFunc cfg.maxReportSize st.parentChars s force
  ({ st with output := st.output ++ [r.printed], parentChars := r.charCount },
   if r.raised then some .printLimit else none)

/-- On-demand footer link appended by `output_unified_diff` when
child pages were produced. -/
def udFooterLink (cfg : HtmlConfig) (rotp : Option RotParams) (truncated : Bool) (st : RenderState) : DocRes :=
  if st.currentPage > 0 then
    match rotp with
    | some rp =>
      let noun := if st.currentPage > 1 then "pieces" else "piece"
      let text := "load diff (" ++ toString st.currentPage ++ " " ++ noun ++ (if truncated then ", truncated" else "") ++ ")"
      docWrite cfg st (udTableFooterStr (htmlEscape (rp.mainname ++ "-1.html")) text) true
    | none => (st, none)
  else (st, none)

/-- Python `spl_print_exit` at the end of `output_unified_diff`: when
a child page is open, write the document footer to it and close it. -/
def splExitClose (cfg : HtmlConfig) (rotp : Option RotParams) (st : RenderState) : RenderState :=
  match rotp with
  | some rp => if st.currentPage > 0 then (splWrite cfg st rp.footerText true).1 else st
  | none => st

/-- Transliteration of `output_unified_diff`: reset the per-diff
globals, render the table, close any open child page on both the
normal and the exceptional path, and on the normal path append the
on-demand link when child pages exist. In the source the rotation
parameters are built from the output directory and the MD5 of the
diff text; the model receives them already bundled. -/
def outputUnifiedDiff (cfg : HtmlConfig) (rotp : Option RotParams) (hil : Bool) (ud : String) (st : RenderState) : DocRes :=
  let st := newUnifiedDiff st
  let r := outputUnifiedDiffTable cfg rotp hil ud.data st
  match r.2 with
  | .completed => udFooterLink cfg rotp false (splExitClose cfg rotp r.1)
  | .truncated => udFooterLink cfg rotp true (splExitClose cfg rotp r.1)
  | .printLimitHit => (splExitClose cfg rotp r.1, some .printLimit)
  | .headerLimitHit => (splExitClose cfg rotp r.1, some .printLimit)
  | .assertionFailed => (splExitClose cfg rotp r.1, some .assertionError)

/-- The Difference tree rendered by the report shell. -/
inductive Difference : Type where
  | node : String → String → List String → Option String → Bool → List Difference → Difference

/-- Source label 1 of a difference node. -/
def Difference.source1 : Difference → String
  | .node s1 _ _ _ _ _ => s1

mutual

/-- Transliteration of `output_difference`: framed container, header
block with one or two labels and the anchor, optional comments, the
unified-diff table when present, recursion into the details, and a
forced close of the container that runs on exception paths too. -/
def outputDifference (cfg : HtmlConfig) (rotp : Option RotParams) (d : Difference) (parents : List String) (st : RenderState) : DocRes :=
  match d with
  | .node s1 s2 comments ud hil details =>
    let sources := parents ++ [s1]
    let anchor := String.intercalate "/" (sources.drop 1)
    let body : DocRes :=
      dbind (docWrite cfg st "<div class=\x27difference\x27>" false) fun st =>
      dbind (docWrite cfg st "<div class=\x27diffheader\x27>" false) fun st =>
      dbind (if s1 = s2 then
               docWrite cfg st ("<div><span class=\x27source\x27>" ++ htmlEscape s1 ++ "<span>") false
             else
               dbind (docWrite cfg st ("<div><span class=\x27source\x27>" ++ htmlEscape s1 ++ "</span> vs.</div>") false) fun st =>
               docWrite cfg st ("<div><span class=\x27source\x27>" ++ htmlEscape s2 ++ "</span>") false) fun st =>
      dbind (docWrite cfg st (" <a class=\x27anchor\x27 href=\x27#" ++ anchor ++ "\x27 name=\x27" ++ anchor ++ "\x27>\xb6</a>") false) fun st =>
      dbind (docWrite cfg st "</div>" false) fun st =>
      dbind (if comments ≠ [] then
               docWrite cfg st ("<div class=\x27comment\x27>" ++ String.intercalate "<br />" (comments.map htmlEscape) ++ "</div>") false
             else (st, none)) fun st =>
      dbind (docWrite cfg st "</div>" false) fun st =>
      dbind (match ud with
             | some u => if u ≠ "" then outputUnifiedDiff cfg rotp hil u st else (st, none)
             | none => (st, none)) fun st =>
      outputDifferenceList cfg rotp details sources st
    let fin := docWrite cfg body.1 "</div>" true
    (fin.1, body.2)

/-- Recursion of `output_difference` over the detail children. -/
def outputDifferenceList (cfg : HtmlConfig) (rotp : Option RotParams) (ds : List Difference) (sources : List String) (st : RenderState) : DocRes :=
  match ds with
  | [] => (st, none)
  | d :: rest =>
    dbind (outputDifference cfg rotp d sources st) fun st =>
      outputDifferenceList cfg rotp rest sources st

end

/-- Transliteration of `output_html` (single-file presenter): a fresh
limited print function, the document header (`HEADER % {...}` depends
on `sys.argv`, the favicon and the css url and is received as
`headerText`), the difference tree, the top-level `PrintLimitReached`
handler appending the error block, then the footer (`FOOTER %
{'version': VERSION}` received as `footerText`). An `AssertionError`
escaping the tree is not caught and skips the footer. -/
def outputHtml (cfg : HtmlConfig) (headerText footerText : String) (d : Difference) : DocRes :=
  let r := dbind (docWrite cfg initRenderState headerText false) fun st =>
    outputDifference cfg none d [] st
  match r.2 with
  | some .printLimit =>
    let st := (docWrite cfg r.1 "<div class=\x27error\x27>Max output size reached.</div>" true).1
    ((docWrite cfg st footerText true).1, none)
  | some .assertionError => (r.1, some .assertionError)
  | none => ((docWrite cfg r.1 footerText true).1, none)

/-- First components of the emitted pieces along a backpointer path,
concatenated: the `''.join(l1)` of `linediff`. -/
def pathEmit1 (s t : List Char) (path : List (Nat × Nat)) : List Char :=
  ((path.map (emitStep s t)).map Prod.fst).flatten

/-- Second components of the emitted pieces along a backpointer path,
concatenated: the `''.join(l2)` of `linediff`. -/
def pathEmit2 (s t : List Char) (path : List (Nat × Nat)) : List Char :=
  ((path.map (emitStep s t)).map Prod.snd).flatten

/-- A string free of the DIFFON/DIFFOFF sentinels. -/
def sentinelFree (s : String) : Prop := ∀ c ∈ s.data, c ≠ DIFFON ∧ c ≠ DIFFOFF

instance (s : String) : Decidable (sentinelFree s) := by
  unfold sentinelFree
  exact inferInstance

/-- Equality of all scanner-owned fields between two render states:
the row-sink primitives never touch these. -/
def eqScan (a b : RenderState) : Prop :=
  b.buf = a.buf ∧ b.addCpt = a.addCpt ∧ b.delCpt = a.delCpt ∧
  b.hunkOff1 = a.hunkOff1 ∧ b.hunkSize1 = a.hunkSize1 ∧
  b.hunkOff2 = a.hunkOff2 ∧ b.hunkSize2 = a.hunkSize2 ∧
  b.line1 = a.line1 ∧ b.line2 = a.line2

/-- A step that only writes (no row accounting): scanner fields and
the row counter are untouched and `DiffBlockLimitReached` is never
raised. -/
def sinkStep (st : RenderState) (r : RRes) : Prop :=
  eqScan st r.1 ∧ r.1.rows = st.rows ∧ r.2 ≠ some RenderExc.blockLimit

/-- Single-file row-budget invariant on a step result: while no
`DiffBlockLimitReached` was raised the row count stays below the cap,
and when one was raised the count sits exactly at the cap. -/
def sfOk (cfg : HtmlConfig) (r : RRes) : Prop :=
  match r.2 with
  | none => r.1.rows < cfg.maxDiffBlockLines
  | some RenderExc.blockLimit => r.1.rows = cfg.maxDiffBlockLines
  | some RenderExc.printLimit => r.1.rows < cfg.maxDiffBlockLines

/-! Helper lemmas. -/

theorem getD_mem_of_lt : ∀ (l : List Char) (i : Nat) (d : Char), i < l.length → l.getD i d ∈ l := by
  intro l
  induction l with
  | nil => intro i d h; simp at h
  | cons a r ih =>
    intro i d h
    match i with
    | 0 => simp [List.getD_cons_zero]
    | i+1 =>
      have : i < r.length := by simpa using h
      simpa [List.getD_cons_succ] using Or.inr (ih i d this)

theorem take_succ_getD : ∀ (l : List Char) (i : Nat) (d : Char), i < l.length →
    l.take (i+1) = l.take i ++ [l.getD i d] := by
  intro l
  induction l with
  | nil => intro i d h; simp at h
  | cons a r ih =>
    intro i d h
    match i with
    | 0 => simp [List.getD_cons_zero]
    | i+1 =>
      have : i < r.length := by simpa using h
      simp [List.getD_cons_succ, ih i d this]

theorem stripMarkers_append : ∀ (a b : List Char),
    stripMarkers (a ++ b) = stripMarkers a ++ stripMarkers b := by
  intro a b
  induction a with
  | nil => rfl
  | cons c r ih =>
    simp only [List.cons_append, stripMarkers]
    split
    · exact ih
    · simp [ih]

theorem stripMarkers_marked (x : Char) (h1 : x ≠ DIFFON) (h2 : x ≠ DIFFOFF) :
    stripMarkers [DIFFON, x, DIFFOFF] = [x] := by
  simp [stripMarkers, h1, h2]

theorem stripMarkers_single (x : Char) (h1 : x ≠ DIFFON) (h2 : x ≠ DIFFOFF) :
    stripMarkers [x] = [x] := by
  simp [stripMarkers, h1, h2]

theorem stripMarkers_sublist : ∀ l : List Char, (stripMarkers l).Sublist l := by
  intro l
  induction l with
  | nil => simp [stripMarkers]
  | cons c r ih =>
    simp only [stripMarkers]
    split
    · exact ih.cons c
    · exact ih.cons₂ c

theorem strip_replOffOn_aux : ∀ (n : Nat) (l : List Char), l.length ≤ n →
    stripMarkers (replOffOn l) = stripMarkers l := by
  intro n
  induction n with
  | zero =>
    intro l h
    have : l = [] := List.eq_nil_of_length_eq_zero (Nat.le_zero.mp h)
    subst this; rfl
  | succ n ih =>
    intro l h
    match l with
    | [] => rfl
    | [c] => rfl
    | a :: b :: r =>
      simp only [replOffOn]
      split
      · rename_i hab
        have hr : r.length ≤ n := by
          simp only [List.length_cons] at h; omega
        rw [ih r hr]
        simp [stripMarkers, hab.1, hab.2]
      · rename_i hab
        have hbr : (b :: r).length ≤ n := by
          simp only [List.length_cons] at h ⊢; omega
        simp only [stripMarkers]
        split
        · exact ih (b :: r) hbr
        · rw [ih (b :: r) hbr]; simp only [stripMarkers]

theorem strip_replOffOn (l : List Char) : stripMarkers (replOffOn l) = stripMarkers l :=
  strip_replOffOn_aux l.length l (Nat.le_refl _)

theorem saneChar_idem (c : Char) : saneChar (saneChar c) = saneChar c := by
  by_cases h : c ≠ '\t' ∧ c ≠ '\n' ∧ c.toNat < 32
  · have hc : saneChar c = '.' := by rw [saneChar, if_pos h]
    rw [hc]; decide
  · have hc : saneChar c = c := by rw [saneChar, if_neg h]
    rw [hc]; exact hc

theorem saneChar_eq_self (c : Char) (h : c = '\t' ∨ c = '\n' ∨ 32 ≤ c.toNat) :
    saneChar c = c := by
  rw [saneChar, if_neg]
  rcases h with h | h | h
  · simp [h]
  · simp [h]
  · intro hc; omega

theorem sane_eq_self (s : List Char) (h : ∀ c ∈ s, c = '\t' ∨ c = '\n' ∨ 32 ≤ c.toNat) :
    sane s = s := by
  induction s with
  | nil => rfl
  | cons c r ih =>
    simp only [sane]
    rw [saneChar_eq_self c (h c (List.mem_cons_self c r)),
        ih (fun x hx => h x (List.mem_cons_of_mem c hx))]

theorem dcell_zero_zero (s t : List Char) : dcell s t 0 0 = (0, 0, 0) := by
  rw [dcell]

theorem dcell_succ_zero (s t : List Char) (i : Nat) : dcell s t (i+1) 0 = (i+1, i, 0) := by
  rw [dcell]

theorem dcell_zero_succ (s t : List Char) (j : Nat) : dcell s t 0 (j+1) = (j+1, 0, j) := by
  rw [dcell]

theorem dcell_succ_succ (s t : List Char) (i j : Nat) :
    dcell s t (i+1) (j+1) =
      pymin3 ((dcell s t i (j+1)).1 + 1, i, j+1)
             ((dcell s t (i+1) j).1 + 1, i+1, j)
             ((dcell s t i j).1 + (if s.getD i '\x00' = t.getD j '\x00' then 0 else 1), i, j) := by
  rw [dcell]

theorem pymin3_cases (a b c : Cell) : pymin3 a b c = a ∨ pymin3 a b c = b ∨ pymin3 a b c = c := by
  simp only [pymin3]
  split_ifs <;> simp

theorem dcell_father (s t : List Char) (i j : Nat) :
    (dcell s t (i+1) (j+1)).2 = (i, j+1) ∨ (dcell s t (i+1) (j+1)).2 = (i+1, j) ∨
      (dcell s t (i+1) (j+1)).2 = (i, j) := by
  rw [dcell_succ_succ]
  rcases pymin3_cases ((dcell s t i (j+1)).1 + 1, i, j+1)
      ((dcell s t (i+1) j).1 + 1, i+1, j)
      ((dcell s t i j).1 + (if s.getD i '\x00' = t.getD j '\x00' then 0 else 1), i, j) with h | h | h <;>
    rw [h] <;> simp

theorem pathEmit1_append (s t : List Char) (a b : List (Nat × Nat)) :
    pathEmit1 s t (a ++ b) = pathEmit1 s t a ++ pathEmit1 s t b := by
  simp [pathEmit1]

theorem pathEmit2_append (s t : List Char) (a b : List (Nat × Nat)) :
    pathEmit2 s t (a ++ b) = pathEmit2 s t a ++ pathEmit2 s t b := by
  simp [pathEmit2]

theorem pathEmit1_single (s t : List Char) (p : Nat × Nat) :
    pathEmit1 s t [p] = (emitStep s t p).1 := by
  simp [pathEmit1]

theorem pathEmit2_single (s t : List Char) (p : Nat × Nat) :
    pathEmit2 s t [p] = (emitStep s t p).2 := by
  simp [pathEmit2]

theorem backPath_zero (s t : List Char) (i j : Nat) : backPath s t 0 i j = [] := rfl

theorem backPath_succ (s t : List Char) (fuel i j : Nat) :
    backPath s t (fuel+1) i j =
      if i = 0 ∧ j = 0 then []
      else backPath s t fuel (dcell s t i j).2.1 (dcell s t i j).2.2 ++ [(i, j)] := by
  rw [backPath]

theorem emitStep_vertical (s t : List Char) (i j fv : Nat)
    (h : dcell s t (i+1) j = (fv, i, j)) :
    emitStep s t (i+1, j) = ([DIFFON, s.getD i '\x00', DIFFOFF], []) := by
  simp only [emitStep, h]
  have h1 : i + 1 - i = 1 := by omega
  have h2 : j - j = 0 := by omega
  simp [h1, h2]

theorem emitStep_horizontal (s t : List Char) (i j fv : Nat)
    (h : dcell s t i (j+1) = (fv, i, j)) :
    emitStep s t (i, j+1) = ([], [DIFFON, t.getD j '\x00', DIFFOFF]) := by
  simp only [emitStep, h]
  have h1 : i - i = 0 := by omega
  have h2 : j + 1 - j = 1 := by omega
  simp [h1, h2]

theorem emitStep_diag_strip (s t : List Char) (i j : Nat)
    (h : (dcell s t (i+1) (j+1)).2 = (i, j)) :
    stripMarkers (emitStep s t (i+1, j+1)).1 = stripMarkers [s.getD i '\x00'] ∧
    stripMarkers (emitStep s t (i+1, j+1)).2 = stripMarkers [t.getD j '\x00'] := by
  have h1 : i + 1 - i = 1 := by omega
  have h2 : j + 1 - j = 1 := by omega
  simp only [emitStep, h, h1, h2]
  split_ifs <;> simp_all [stripMarkers]

theorem backPath_strip (s t : List Char)
    (hs : ∀ c ∈ s, c ≠ DIFFON ∧ c ≠ DIFFOFF)
    (ht : ∀ c ∈ t, c ≠ DIFFON ∧ c ≠ DIFFOFF) :
    ∀ (fuel i j : Nat), i ≤ s.length → j ≤ t.length → i + j ≤ fuel →
      stripMarkers (pathEmit1 s t (backPath s t fuel i j)) = s.take i ∧
      stripMarkers (pathEmit2 s t (backPath s t fuel i j)) = t.take j := by
  intro fuel
  induction fuel with
  | zero =>
    intro i j hi hj hf
    have hi0 : i = 0 := by omega
    have hj0 : j = 0 := by omega
    subst hi0; subst hj0
    simp [backPath_zero, pathEmit1, pathEmit2, stripMarkers]
  | succ fuel ih =>
    intro i j hi hj hf
    cases i with
    | zero =>
      cases j with
      | zero => simp [backPath_succ, pathEmit1, pathEmit2, stripMarkers]
      | succ j =>
        have hd : dcell s t 0 (j+1) = (j+1, 0, j) := dcell_zero_succ s t j
        have hbp : backPath s t (fuel+1) 0 (j+1) = backPath s t fuel 0 j ++ [(0, j+1)] := by
          rw [backPath_succ, if_neg (by simp), hd]
        have hj' : j < t.length := by omega
        obtain ⟨ih1, ih2⟩ := ih 0 j (by omega) (by omega) (by omega)
        have he := emitStep_horizontal s t 0 j (j+1) hd
        have hm := ht _ (getD_mem_of_lt t j '\x00' hj')
        rw [hbp, pathEmit1_append, pathEmit2_append, pathEmit1_single, pathEmit2_single,
            stripMarkers_append, stripMarkers_append, he, ih1, ih2]
        constructor
        · simp [stripMarkers]
        · rw [stripMarkers_marked _ hm.1 hm.2]
          exact (take_succ_getD t j '\x00' hj').symm
    | succ i =>
      cases j with
      | zero =>
        have hd : dcell s t (i+1) 0 = (i+1, i, 0) := dcell_succ_zero s t i
        have hbp : backPath s t (fuel+1) (i+1) 0 = backPath s t fuel i 0 ++ [(i+1, 0)] := by
          rw [backPath_succ, if_neg (by simp), hd]
        have hi' : i < s.length := by omega
        obtain ⟨ih1, ih2⟩ := ih i 0 (by omega) (by omega) (by omega)
        have he := emitStep_vertical s t i 0 (i+1) hd
        have hm := hs _ (getD_mem_of_lt s i '\x00' hi')
        rw [hbp, pathEmit1_append, pathEmit2_append, pathEmit1_single, pathEmit2_single,
            stripMarkers_append, stripMarkers_append, he, ih1, ih2]
        constructor
        · rw [stripMarkers_marked _ hm.1 hm.2]
          exact (take_succ_getD s i '\x00' hi').symm
        · simp [stripMarkers]
      | succ j =>
        rcases dcell_father s t i j with hc | hc | hc
        · -- vertical move: father (i, j+1), consumes s[i]
          have hfull : dcell s t (i+1) (j+1) = ((dcell s t (i+1) (j+1)).1, i, j+1) :=
            Prod.ext rfl hc
          have hbp : backPath s t (fuel+1) (i+1) (j+1) =
              backPath s t fuel i (j+1) ++ [(i+1, j+1)] := by
            rw [backPath_succ, if_neg (by simp), hfull]
          have hi' : i < s.length := by omega
          obtain ⟨ih1, ih2⟩ := ih i (j+1) (by omega) (by omega) (by omega)
          have he := emitStep_vertical s t i (j+1) ((dcell s t (i+1) (j+1)).1) hfull
          have hm := hs _ (getD_mem_of_lt s i '\x00' hi')
          rw [hbp, pathEmit1_append, pathEmit2_append, pathEmit1_single, pathEmit2_single,
              stripMarkers_append, stripMarkers_append, he, ih1, ih2]
          constructor
          · rw [stripMarkers_marked _ hm.1 hm.2]
            exact (take_succ_getD s i '\x00' hi').symm
          · simp [stripMarkers]
        · -- horizontal move: father (i+1, j), consumes t[j]
          have hfull : dcell s t (i+1) (j+1) = ((dcell s t (i+1) (j+1)).1, i+1, j) :=
            Prod.ext rfl hc
          have hbp : backPath s t (fuel+1) (i+1) (j+1) =
              backPath s t fuel (i+1) j ++ [(i+1, j+1)] := by
            rw [backPath_succ, if_neg (by simp), hfull]
          have hj' : j < t.length := by omega
          obtain ⟨ih1, ih2⟩ := ih (i+1) j (by omega) (by omega) (by omega)
          have he := emitStep_horizontal s t (i+1) j ((dcell s t (i+1) (j+1)).1) hfull
          have hm := ht _ (getD_mem_of_lt t j '\x00' hj')
          rw [hbp, pathEmit1_append, pathEmit2_append, pathEmit1_single, pathEmit2_single,
              stripMarkers_append, stripMarkers_append, he, ih1, ih2]
          constructor
          · simp [stripMarkers]
          · rw [stripMarkers_marked _ hm.1 hm.2]
            exact (take_succ_getD t j '\x00' hj').symm
        · -- diagonal move: father (i, j), consumes s[i] and t[j]
          have hfull : dcell s t (i+1) (j+1) = ((dcell s t (i+1) (j+1)).1, i, j) :=
            Prod.ext rfl hc
          have hbp : backPath s t (fuel+1) (i+1) (j+1) =
              backPath s t fuel i j ++ [(i+1, j+1)] := by
            rw [backPath_succ, if_neg (by simp), hfull]
          have hi' : i < s.length := by omega
          have hj' : j < t.length := by omega
          obtain ⟨ih1, ih2⟩ := ih i j (by omega) (by omega) (by omega)
          obtain ⟨hd1, hd2⟩ := emitStep_diag_strip s t i j hc
          have hm1 := hs _ (getD_mem_of_lt s i '\x00' hi')
          have hm2 := ht _ (getD_mem_of_lt t j '\x00' hj')
          rw [hbp, pathEmit1_append, pathEmit2_append, pathEmit1_single, pathEmit2_single,
              stripMarkers_append, stripMarkers_append, hd1, hd2, ih1, ih2]
          constructor
          · rw [stripMarkers_single _ hm1.1 hm1.2]
            exact (take_succ_getD s i '\x00' hi').symm
          · rw [stripMarkers_single _ hm2.1 hm2.2]
            exact (take_succ_getD t j '\x00' hj').symm

theorem linediff_eq_of_sanitized (s t : List Char)
    (hs : ∀ c ∈ s, c = '\t' ∨ c = '\n' ∨ 32 ≤ c.toNat)
    (ht : ∀ c ∈ t, c = '\t' ∨ c = '\n' ∨ 32 ≤ c.toNat) :
    linediff s t =
      (replOffOn (pathEmit1 s t (backPath s t (s.length + t.length) s.length t.length)),
       replOffOn (pathEmit2 s t (backPath s t (s.length + t.length) s.length t.length))) := by
  have h1 : (if s.length ≠ 0 then sane s else s) = s := by
    split
    · exact sane_eq_self s hs
    · rfl
  have h2 : (if t.length ≠ 0 then sane t else t) = t := by
    split
    · exact sane_eq_self t ht
    · rfl
  simp only [linediff, h1, h2, pathEmit1, pathEmit2]

/-- Claim C3: for sanitized inputs (no code point below 32 other than
tab and newline), removing every DIFFON and DIFFOFF code point from
the two strings returned by `linediff(s, t)` yields exactly `s` and
`t`; consequently every character of each input appears in order in
the corresponding output (the input is a sublist of the output). -/
theorem claim_C3_alignment_preservation (s t : List Char)
    (hs : ∀ c ∈ s, c = '\t' ∨ c = '\n' ∨ 32 ≤ c.toNat)
    (ht : ∀ c ∈ t, c = '\t' ∨ c = '\n' ∨ 32 ≤ c.toNat) :
    stripMarkers (linediff s t).1 = s ∧ stripMarkers (linediff s t).2 = t ∧
    s.Sublist (linediff s t).1 ∧ t.Sublist (linediff s t).2 := by
  have hs' : ∀ c ∈ s, c ≠ DIFFON ∧ c ≠ DIFFOFF := by
    intro c hc
    rcases hs c hc with h | h | h
    · subst h; exact ⟨by decide, by decide⟩
    · subst h; exact ⟨by decide, by decide⟩
    · constructor <;> intro he <;> subst he <;> exact absurd h (by decide)
  have ht' : ∀ c ∈ t, c ≠ DIFFON ∧ c ≠ DIFFOFF := by
    intro c hc
    rcases ht c hc with h | h | h
    · subst h; exact ⟨by decide, by decide⟩
    · subst h; exact ⟨by decide, by decide⟩
    · constructor <;> intro he <;> subst he <;> exact absurd h (by decide)
  have hld := linediff_eq_of_sanitized s t hs ht
  obtain ⟨e1, e2⟩ := backPath_strip s t hs' ht' (s.length + t.length) s.length t.length
    (Nat.le_refl _) (Nat.le_refl _) (Nat.le_refl _)
  have r1 : stripMarkers (linediff s t).1 = s := by
    rw [hld]
    show stripMarkers (replOffOn _) = s
    rw [strip_replOffOn, e1, List.take_length]
  have r2 : stripMarkers (linediff s t).2 = t := by
    rw [hld]
    show stripMarkers (replOffOn _) = t
    rw [strip_replOffOn, e2, List.take_length]
  refine ⟨r1, r2, ?_, ?_⟩
  · have hsub := stripMarkers_sublist (linediff s t).1
    rwa [r1] at hsub
  · have hsub := stripMarkers_sublist (linediff s t).2
    rwa [r2] at hsub

/-- Witness for claim C3 at the concrete aligned pair of the spec's
E2 scenario ("bar" vs "baz"). -/
theorem claim_C3_witness :
    stripMarkers (linediff "bar".data "baz".data).1 = "bar".data ∧
    stripMarkers (linediff "bar".data "baz".data).2 = "baz".data ∧
    "bar".data.Sublist (linediff "bar".data "baz".data).1 ∧
    "baz".data.Sublist (linediff "bar".data "baz".data).2 :=
  claim_C3_alignment_preservation "bar".data "baz".data (by decide) (by decide)

/-- Claim C4: in the aligner's edit-distance DP, the stored
back-pointer of every inner cell `(i+1, j+1)` prefers the diagonal
move whenever the diagonal candidate attains the minimal cost, then
the vertical (delete-from-s) move, then the horizontal (insert-in-t)
move — this is exactly Python's tuple `min`, which breaks cost ties
by the lexicographically smallest predecessor coordinate. -/
theorem claim_C4_tiebreak (s t : List Char) (i j : Nat) :
    (dcell s t (i+1) (j+1)).2 =
      (if (dcell s t i j).1 + (if s.getD i '\x00' = t.getD j '\x00' then 0 else 1) ≤ (dcell s t i (j+1)).1 + 1
          ∧ (dcell s t i j).1 + (if s.getD i '\x00' = t.getD j '\x00' then 0 else 1) ≤ (dcell s t (i+1) j).1 + 1
       then (i, j)
       else if (dcell s t i (j+1)).1 + 1 ≤ (dcell s t (i+1) j).1 + 1 then (i, j+1)
       else (i+1, j)) := by
  rw [dcell_succ_succ]
  generalize (dcell s t i (j+1)).1 + 1 = vc
  generalize (dcell s t (i+1) j).1 + 1 = hc
  generalize (dcell s t i j).1 + (if s.getD i '\x00' = t.getD j '\x00' then 0 else 1) = dc
  simp only [pymin3, cellLt]
  split_ifs <;> first
    | rfl
    | (exfalso; omega)
    | (simp_all; omega)

theorem string_data_append (a b : String) : (a ++ b).data = a.data ++ b.data := by
  cases a; cases b; rfl

theorem sentinelFree_append {a b : String} (ha : sentinelFree a) (hb : sentinelFree b) :
    sentinelFree (a ++ b) := by
  intro c hc
  rw [string_data_append, List.mem_append] at hc
  rcases hc with hc | hc
  · exact ha c hc
  · exact hb c hc

theorem sentinelFree_singleton (c : Char) (h : 32 ≤ c.toNat) :
    sentinelFree (String.singleton c) := by
  intro x hx
  have hx' : x = c := by simpa [String.singleton] using hx
  subst hx'
  constructor <;> intro he <;> subst he <;> exact absurd h (by decide)

theorem sentinelFree_replicate (n : Nat) (c : Char) (h : 32 ≤ c.toNat) :
    sentinelFree (String.mk (List.replicate n c)) := by
  intro x hx
  have hx' : x = c := (List.eq_of_mem_replicate (by simpa using hx))
  subst hx'
  constructor <;> intro he <;> subst he <;> exact absurd h (by decide)

theorem sentinelFree_hexBelow32 (n : Nat) (h : n < 32) : sentinelFree (hexBelow32 n) := by
  interval_cases n <;> decide

theorem sentinelFree_htmlEscapeChar (c : Char) (h : 32 ≤ c.toNat) :
    sentinelFree (htmlEscapeChar c) := by
  unfold htmlEscapeChar
  split_ifs <;> first
    | decide
    | exact sentinelFree_singleton c h

theorem convertStep_sentinelFree (ponct : Bool) (tag : String) (htag : sentinelFree tag)
    (c : Char) (i : Nat) : sentinelFree (convertStep ponct tag c i).1 := by
  unfold convertStep
  dsimp only
  split_ifs <;>
    dsimp only <;>
    (repeat' apply sentinelFree_append) <;>
    first
      | exact htag
      | decide
      | exact sentinelFree_replicate _ _ (by decide)
      | exact sentinelFree_hexBelow32 _ (by omega)
      | exact sentinelFree_htmlEscapeChar _ (by omega)

theorem convertAux_sentinelFree (ponct : Bool) (tag : String) (htag : sentinelFree tag) :
    ∀ (s : List Char) (i : Nat), sentinelFree (convertAux ponct tag s i) := by
  intro s
  induction s with
  | nil => intro i; intro c hc; simp [convertAux] at hc
  | cons a r ih =>
    intro i
    show sentinelFree ((convertStep ponct tag a i).1 ++ convertAux ponct tag r (convertStep ponct tag a i).2)
    exact sentinelFree_append (convertStep_sentinelFree ponct tag htag a i) (ih _)

/-- Claim C5 (amended): every string produced by the HTML converter
`convert` is free of the DIFFON and DIFFOFF code points (for any
sentinel-free tag such as "del"/"ins"); a leading DIFFON or DIFFOFF
in its input contributes exactly the opening or closing tag pair.
The original claim — that the whole rendered document never contains
the sentinels — fails because bracket-prefixed diff lines are
emitted verbatim without conversion (see the counterexample). -/
theorem claim_C5_convert_sentinel_free (s : List Char) (ponct : Bool) (tag : String)
    (htag : sentinelFree tag) :
    sentinelFree (convert s ponct tag) ∧
    convert (DIFFON :: s) ponct tag = ("<" ++ tag ++ ">") ++ convert s ponct tag ∧
    convert (DIFFOFF :: s) ponct tag = ("</" ++ tag ++ ">") ++ convert s ponct tag := by
  refine ⟨convertAux_sentinelFree ponct tag htag s 0, ?_, ?_⟩
  · have hwb : ¬ isWordBreak DIFFON := by decide
    simp [convert, convertAux, convertStep, hwb, LINESIZE]
  · have hwb : ¬ isWordBreak DIFFOFF := by decide
    have hne : ¬ (DIFFOFF = DIFFON) := by decide
    simp [convert, convertAux, convertStep, hwb, hne, LINESIZE]

/-- Witness for the amended claim C5 at a concrete marked input. -/
theorem claim_C5_witness :
    sentinelFree (convert [DIFFON, 'x', DIFFOFF] true "del") ∧
    convert (DIFFON :: [DIFFON, 'x', DIFFOFF]) true "del" =
      ("<" ++ "del" ++ ">") ++ convert [DIFFON, 'x', DIFFOFF] true "del" ∧
    convert (DIFFOFF :: [DIFFON, 'x', DIFFOFF]) true "del" =
      ("</" ++ "del" ++ ">") ++ convert [DIFFON, 'x', DIFFOFF] true "del" :=
  claim_C5_convert_sentinel_free [DIFFON, 'x', DIFFOFF] true "del" (by decide)

/-- Counterexample for claim C5 as stated: a difference whose
unified diff consists of the bracket-prefixed line "[\x01" renders
(single-file mode, generous limits) to a document whose output
contains the DIFFON code point as text, because the scanner prints
bracket-prefixed lines verbatim without HTML conversion. -/
theorem claim_C5_counterexample :
    ∃ w ∈ (outputHtml ⟨1000000, 1000000, 1000000, 1000000, 1000⟩ "" ""
        (Difference.node "a" "a" [] (some "[\x01") false [])).1.output,
      DIFFON ∈ w.data := by
  decide

/-- Claim C9: `sane` is idempotent — `sane(sane(x)) == sane(x)` for
every string `x`, where `sane` replaces every code point below 32
that is neither tab nor newline with "." and leaves all other
characters unchanged. -/
theorem claim_C9_sane_idempotent (x : List Char) : sane (sane x) = sane x := by
  induction x with
  | nil => rfl
  | cons c r ih => simp only [sane, saneChar_idem, ih]

theorem eqScan_refl (a : RenderState) : eqScan a a := by
  unfold eqScan
  exact ⟨rfl, rfl, rfl, rfl, rfl, rfl, rfl, rfl, rfl⟩

theorem eqScan_trans {a b c : RenderState} (h1 : eqScan a b) (h2 : eqScan b c) : eqScan a c := by
  unfold eqScan at h1 h2 ⊢
  obtain ⟨x1, x2, x3, x4, x5, x6, x7, x8, x9⟩ := h1
  obtain ⟨y1, y2, y3, y4, y5, y6, y7, y8, y9⟩ := h2
  exact ⟨y1.trans x1, y2.trans x2, y3.trans x3, y4.trans x4, y5.trans x5,
         y6.trans x6, y7.trans x7, y8.trans x8, y9.trans x9⟩

theorem splWrite_sinkStep (cfg : HtmlConfig) (st : RenderState) (s : String) (force : Bool) :
    sinkStep st (splWrite cfg st s force) := by
  unfold sinkStep eqScan splWrite
  split_ifs <;> simp [limitedPrintFunc, recordingPrintFunc]

theorem splWrite_page (cfg : HtmlConfig) (st : RenderState) (s : String) (force : Bool) :
    (splWrite cfg st s force).1.currentPage = st.currentPage := by
  unfold splWrite
  split_ifs <;> simp [limitedPrintFunc, recordingPrintFunc]

theorem splWrite_printLimit_page (cfg : HtmlConfig) (st : RenderState) (s : String) (force : Bool) :
    (splWrite cfg st s force).2 = some RenderExc.printLimit → st.currentPage = 0 := by
  unfold splWrite
  split_ifs with h
  · intro _
    exact h
  · simp [recordingPrintFunc]

theorem splWrite_child_ok (cfg : HtmlConfig) (st : RenderState) (s : String) (force : Bool)
    (h : st.currentPage ≠ 0) : (splWrite cfg st s force).2 = none := by
  unfold splWrite
  rw [if_neg h]

theorem splWrite_force_ok (cfg : HtmlConfig) (st : RenderState) (s : String) :
    (splWrite cfg st s true).2 = none := by
  unfold splWrite
  split_ifs <;> simp [limitedPrintFunc, recordingPrintFunc]

theorem sinkStep_rbind {st : RenderState} {r : RRes} {f : RenderState → RRes}
    (h1 : sinkStep st r) (h2 : ∀ s, sinkStep s (f s)) : sinkStep st (rbind r f) := by
  obtain ⟨s1, e⟩ := r
  cases e with
  | none =>
    obtain ⟨ha, hb, _⟩ := h1
    obtain ⟨hc, hd, he⟩ := h2 s1
    exact ⟨eqScan_trans ha hc, hd.trans hb, he⟩
  | some e => exact h1

theorem rbind_of_none {r : RRes} {f : RenderState → RRes} (h : r.2 = none) :
    rbind r f = f r.1 := by
  obtain ⟨s, e⟩ := r
  cases e with
  | none => rfl
  | some e => simp at h

theorem rotate_spec (cfg : HtmlConfig) (rp : RotParams) (st : RenderState) :
    eqScan st (rotate cfg rp st).1 ∧ (rotate cfg rp st).1.rows = st.rows ∧
    (rotate cfg rp st).2 = none := by
  unfold rotate rbind splWrite limitedPrintFunc recordingPrintFunc
  dsimp only
  split_ifs <;> simp_all [eqScan]
theorem rowWasOutput_spec (cfg : HtmlConfig) (rotp : Option RotParams) (st : RenderState) :
    eqScan st (rowWasOutput cfg rotp st).1 ∧
    (rowWasOutput cfg rotp st).1.rows = st.rows + 1 ∧
    (rowWasOutput cfg rotp st).2 ≠ some RenderExc.printLimit := by
  unfold rowWasOutput
  cases rotp with
  | none =>
    dsimp only
    split_ifs <;> simp [eqScan]
  | some rp =>
    dsimp only
    split_ifs <;>
      first
        | (simp [eqScan]; done)
        | (obtain ⟨h1, h2, h3⟩ := rotate_spec cfg rp { st with rows := st.rows + 1 }
           exact ⟨eqScan_trans (by simp [eqScan]) h1, by simpa using h2, by simp [h3]⟩)

theorem rowWasOutput_none_eq (cfg : HtmlConfig) (st : RenderState) :
    rowWasOutput cfg none st =
      ({ st with rows := st.rows + 1 },
       if st.rows + 1 ≥ cfg.maxDiffBlockLines then some RenderExc.blockLimit else none) := by
  unfold rowWasOutput
  split_ifs with h <;> simp_all

theorem sideWrites_sinkStep (cfg : HtmlConfig) (hil : Bool) (tag : String) (lineNo : Nat)
    (sv : Option (List Char)) (st : RenderState) :
    sinkStep st (sideWrites cfg hil tag lineNo sv st) := by
  unfold sideWrites
  split_ifs with h hh
  · exact sinkStep_rbind (splWrite_sinkStep _ _ _ _)
      (fun s => sinkStep_rbind (splWrite_sinkStep _ _ _ _) (fun s2 => splWrite_sinkStep _ _ _ _))
  · exact sinkStep_rbind
      (sinkStep_rbind (splWrite_sinkStep _ _ _ _) (fun s => splWrite_sinkStep _ _ _ _))
      (fun s => sinkStep_rbind (splWrite_sinkStep _ _ _ _) (fun s2 => splWrite_sinkStep _ _ _ _))
  · exact splWrite_sinkStep _ _ _ _

theorem outputRowBody_sinkStep (cfg : HtmlConfig) (hil : Bool) (typeName : String)
    (sp : Option (List Char) × Option (List Char)) (st : RenderState) :
    sinkStep st (outputRowBody cfg hil typeName sp st) := by
  unfold outputRowBody
  exact sinkStep_rbind (splWrite_sinkStep _ _ _ _)
    (fun s => sinkStep_rbind (sideWrites_sinkStep _ _ _ _ _ _)
      (fun s2 => sideWrites_sinkStep _ _ _ _ _ _))

theorem outputLineFinish_spec (cfg : HtmlConfig) (rotp : Option RotParams)
    (orig1 orig2 : Option (List Char)) (st : RenderState) (body : RRes)
    (hb : sinkStep st body) :
    (outputLineFinish cfg rotp orig1 orig2 body).1.buf = st.buf ∧
    (outputLineFinish cfg rotp orig1 orig2 body).1.addCpt = st.addCpt ∧
    (outputLineFinish cfg rotp orig1 orig2 body).1.delCpt = st.delCpt ∧
    (outputLineFinish cfg rotp orig1 orig2 body).1.hunkOff1 = st.hunkOff1 ∧
    (outputLineFinish cfg rotp orig1 orig2 body).1.hunkSize1 = st.hunkSize1 ∧
    (outputLineFinish cfg rotp orig1 orig2 body).1.hunkOff2 = st.hunkOff2 ∧
    (outputLineFinish cfg rotp orig1 orig2 body).1.hunkSize2 = st.hunkSize2 ∧
    (outputLineFinish cfg rotp orig1 orig2 body).1.rows = st.rows + 1 ∧
    ((outputLineFinish cfg rotp orig1 orig2 body).2 = none →
      (outputLineFinish cfg rotp orig1 orig2 body).1.line1 = lineAdvance orig1 st.line1 ∧
      (outputLineFinish cfg rotp orig1 orig2 body).1.line2 = lineAdvance orig2 st.line2) ∧
    ((outputLineFinish cfg rotp orig1 orig2 body).2 ≠ none →
      (outputLineFinish cfg rotp orig1 orig2 body).1.line1 = st.line1 ∧
      (outputLineFinish cfg rotp orig1 orig2 body).1.line2 = st.line2) ∧
    (rotp = none →
      ((outputLineFinish cfg rotp orig1 orig2 body).2 = some RenderExc.blockLimit ↔
        st.rows + 1 ≥ cfg.maxDiffBlockLines)) := by
  obtain ⟨hbScan, hbRows, hbNoBlock⟩ := hb
  obtain ⟨w1, w2, w3⟩ := splWrite_sinkStep cfg body.1 "</tr>\n" true
  obtain ⟨r1, r2, r3⟩ := rowWasOutput_spec cfg rotp (splWrite cfg body.1 "</tr>\n" true).1
  have hScan : eqScan st (rowWasOutput cfg rotp (splWrite cfg body.1 "</tr>\n" true).1).1 :=
    eqScan_trans (eqScan_trans hbScan w1) r1
  have hRows : (rowWasOutput cfg rotp (splWrite cfg body.1 "</tr>\n" true).1).1.rows = st.rows + 1 := by
    rw [r2, w2, hbRows]
  have hWrows : (splWrite cfg body.1 "</tr>\n" true).1.rows = st.rows := by
    rw [w2, hbRows]
  have hiff : rotp = none →
      ((rowWasOutput cfg rotp (splWrite cfg body.1 "</tr>\n" true).1).2
        = some RenderExc.blockLimit ↔ st.rows + 1 ≥ cfg.maxDiffBlockLines) := by
    intro hrp
    subst hrp
    rw [rowWasOutput_none_eq]
    dsimp only
    rw [hWrows]
    split_ifs with hge
    · simp [hge]
    · simp [hge]
  obtain ⟨q1, q2, q3, q4, q5, q6, q7, q8, q9⟩ := hScan
  unfold outputLineFinish
  dsimp only
  cases hrw : (rowWasOutput cfg rotp (splWrite cfg body.1 "</tr>\n" true).1).2 with
  | some e2 =>
    simp only [hrw]
    refine ⟨q1, q2, q3, q4, q5, q6, q7, hRows, by simp, fun _ => ⟨q8, q9⟩, ?_⟩
    intro hrp
    have h := hiff hrp
    rwa [hrw] at h
  | none =>
    simp only [hrw]
    have h := hiff
    cases he : body.2 with
    | some e =>
      simp only [he]
      refine ⟨q1, q2, q3, q4, q5, q6, q7, hRows, by simp, fun _ => ⟨q8, q9⟩, ?_⟩
      intro hrp
      have h2 := hiff hrp
      rw [hrw] at h2
      constructor
      · intro hbl
        simp only [Option.some.injEq] at hbl
        rw [hbl] at he
        exact absurd he hbNoBlock
      · intro hge
        exact absurd (h2.mpr hge) (by simp)
    | none =>
      simp only [he]
      refine ⟨q1, q2, q3, q4, q5, q6, q7, hRows, ?_, ?_, ?_⟩
      · intro _
        exact ⟨by rw [q8], by rw [q9]⟩
      · intro hne
        exact absurd rfl hne
      · intro hrp
        have h2 := hiff hrp
        rw [hrw] at h2
        constructor
        · intro hbl
          simp at hbl
        · intro hge
          exact absurd (h2.mpr hge) (by simp)
theorem outputLine_spec (cfg : HtmlConfig) (rotp : Option RotParams) (hil : Bool)
    (st : RenderState) (os1 os2 : Option (List Char)) :
    (outputLine cfg rotp hil st os1 os2).1.buf = st.buf ∧
    (outputLine cfg rotp hil st os1 os2).1.addCpt = st.addCpt ∧
    (outputLine cfg rotp hil st os1 os2).1.delCpt = st.delCpt ∧
    (outputLine cfg rotp hil st os1 os2).1.hunkOff1 = st.hunkOff1 ∧
    (outputLine cfg rotp hil st os1 os2).1.hunkSize1 = st.hunkSize1 ∧
    (outputLine cfg rotp hil st os1 os2).1.hunkOff2 = st.hunkOff2 ∧
    (outputLine cfg rotp hil st os1 os2).1.hunkSize2 = st.hunkSize2 ∧
    (outputLine cfg rotp hil st os1 os2).1.rows = st.rows + 1 ∧
    ((outputLine cfg rotp hil st os1 os2).2 = none →
      (outputLine cfg rotp hil st os1 os2).1.line1 = lineAdvance os1 st.line1 ∧
      (outputLine cfg rotp hil st os1 os2).1.line2 = lineAdvance os2 st.line2) ∧
    ((outputLine cfg rotp hil st os1 os2).2 ≠ none →
      (outputLine cfg rotp hil st os1 os2).1.line1 = st.line1 ∧
      (outputLine cfg rotp hil st os1 os2).1.line2 = st.line2) ∧
    (rotp = none →
      ((outputLine cfg rotp hil st os1 os2).2 = some RenderExc.blockLimit ↔
        st.rows + 1 ≥ cfg.maxDiffBlockLines)) := by
  unfold outputLine
  dsimp only
  exact outputLineFinish_spec cfg rotp os1 os2 st _ (outputRowBody_sinkStep _ _ _ _ _)

theorem rbind_assoc (r : RRes) (f g : RenderState → RRes) :
    rbind (rbind r f) g = rbind r (fun s => rbind (f s) g) := by
  obtain ⟨s, e⟩ := r
  cases e <;> rfl

theorem sfOk_rbind {cfg : HtmlConfig} {r : RRes} {f : RenderState → RRes}
    (h1 : sfOk cfg r)
    (h2 : ∀ s, s.rows < cfg.maxDiffBlockLines → sfOk cfg (f s)) :
    sfOk cfg (rbind r f) := by
  obtain ⟨s, e⟩ := r
  cases e with
  | none => exact h2 s h1
  | some e => exact h1

theorem splWrite_sfOk (cfg : HtmlConfig) (st : RenderState) (s : String) (force : Bool)
    (h : st.rows < cfg.maxDiffBlockLines) : sfOk cfg (splWrite cfg st s force) := by
  obtain ⟨_, hrows, hnb⟩ := splWrite_sinkStep cfg st s force
  unfold sfOk
  cases he : (splWrite cfg st s force).2 with
  | none => rwa [hrows]
  | some e =>
    cases e with
    | blockLimit => rw [he] at hnb; exact absurd rfl hnb
    | printLimit => rwa [hrows]

theorem sinkStep_row_sfOk (cfg : HtmlConfig) (st : RenderState) (r : RRes)
    (hr : sinkStep st r) (h : st.rows < cfg.maxDiffBlockLines) :
    sfOk cfg (rbind r fun s => rowWasOutput cfg none s) := by
  obtain ⟨hScan, hRows, hNb⟩ := hr
  obtain ⟨s1, e⟩ := r
  cases e with
  | none =>
    show sfOk cfg (rowWasOutput cfg none s1)
    rw [rowWasOutput_none_eq]
    unfold sfOk
    dsimp only
    simp only at hRows
    split_ifs with hge
    · dsimp only
      omega
    · dsimp only
      omega
  | some e =>
    cases e with
    | blockLimit => exact absurd rfl hNb
    | printLimit =>
      show sfOk cfg (s1, some RenderExc.printLimit)
      unfold sfOk
      dsimp only
      simp only at hRows
      omega

theorem outputHunk_sfOk (cfg : HtmlConfig) (st : RenderState)
    (h : st.rows < cfg.maxDiffBlockLines) : sfOk cfg (outputHunk cfg none st) := by
  unfold outputHunk
  rw [show (rbind (splWrite cfg st ("<tr class=\"diffhunk\"><td colspan=\"2\">Offset " ++ toString st.hunkOff1 ++ ", " ++ toString st.hunkSize1 ++ " lines modified</td>") false) fun st =>
      rbind (splWrite cfg st ("<td colspan=\"2\">Offset " ++ toString st.hunkOff2 ++ ", " ++ toString st.hunkSize2 ++ " lines modified</td></tr>\n") false) fun st =>
      rowWasOutput cfg none st) =
      rbind (rbind (splWrite cfg st ("<tr class=\"diffhunk\"><td colspan=\"2\">Offset " ++ toString st.hunkOff1 ++ ", " ++ toString st.hunkSize1 ++ " lines modified</td>") false) fun s =>
        (splWrite cfg s ("<td colspan=\"2\">Offset " ++ toString s.hunkOff2 ++ ", " ++ toString s.hunkSize2 ++ " lines modified</td></tr>\n") false)) fun s =>
        rowWasOutput cfg none s from (rbind_assoc _ _ _).symm]
  exact sinkStep_row_sfOk cfg st _
    (sinkStep_rbind (splWrite_sinkStep _ _ _ _) (fun s => splWrite_sinkStep _ _ _ _)) h

theorem outputLine_sfOk (cfg : HtmlConfig) (hil : Bool) (st : RenderState)
    (os1 os2 : Option (List Char)) (h : st.rows < cfg.maxDiffBlockLines) :
    sfOk cfg (outputLine cfg none hil st os1 os2) := by
  obtain ⟨_, _, _, _, _, _, _, hrows, _, _, hiff⟩ := outputLine_spec cfg none hil st os1 os2
  have hiff := hiff rfl
  unfold sfOk
  cases he : (outputLine cfg none hil st os1 os2).2 with
  | none =>
    rw [he] at hiff
    have : ¬ st.rows + 1 ≥ cfg.maxDiffBlockLines := fun hge => by simpa using hiff.mpr hge
    omega
  | some e =>
    cases e with
    | blockLimit =>
      rw [he] at hiff
      have := hiff.mp rfl
      omega
    | printLimit =>
      rw [he] at hiff
      have : ¬ st.rows + 1 ≥ cfg.maxDiffBlockLines := fun hge => by simpa using hiff.mpr hge
      omega

theorem outputLines_sfOk (cfg : HtmlConfig) (hil : Bool) :
    ∀ (ps : List (Option (List Char) × Option (List Char))) (st : RenderState),
      st.rows < cfg.maxDiffBlockLines → sfOk cfg (outputLines cfg none hil st ps) := by
  intro ps
  induction ps with
  | nil => intro st h; exact h
  | cons p rest ih =>
    intro st h
    unfold outputLines
    have hline := outputLine_sfOk cfg hil st p.1 p.2 h
    cases he : outputLine cfg none hil st p.1 p.2 with
    | mk s1 e =>
      cases e with
      | none =>
        rw [he] at hline
        exact ih s1 hline
      | some e2 =>
        rw [he] at hline
        exact hline

theorem outputLines_frame (cfg : HtmlConfig) (rotp : Option RotParams) (hil : Bool) :
    ∀ (ps : List (Option (List Char) × Option (List Char))) (st : RenderState),
      (outputLines cfg rotp hil st ps).1.buf = st.buf ∧
      (outputLines cfg rotp hil st ps).1.addCpt = st.addCpt ∧
      (outputLines cfg rotp hil st ps).1.delCpt = st.delCpt ∧
      (outputLines cfg rotp hil st ps).1.hunkOff1 = st.hunkOff1 ∧
      (outputLines cfg rotp hil st ps).1.hunkSize1 = st.hunkSize1 ∧
      (outputLines cfg rotp hil st ps).1.hunkOff2 = st.hunkOff2 ∧
      (outputLines cfg rotp hil st ps).1.hunkSize2 = st.hunkSize2 := by
  intro ps
  induction ps with
  | nil => intro st; exact ⟨rfl, rfl, rfl, rfl, rfl, rfl, rfl⟩
  | cons p rest ih =>
    intro st
    unfold outputLines
    obtain ⟨f1, f2, f3, f4, f5, f6, f7, _, _, _, _⟩ := outputLine_spec cfg rotp hil st p.1 p.2
    cases he : outputLine cfg rotp hil st p.1 p.2 with
    | mk s1 e =>
      rw [he] at f1 f2 f3 f4 f5 f6 f7
      cases e with
      | none =>
        obtain ⟨g1, g2, g3, g4, g5, g6, g7⟩ := ih s1
        exact ⟨g1.trans f1, g2.trans f2, g3.trans f3, g4.trans f4, g5.trans f5,
               g6.trans f6, g7.trans f7⟩
      | some e2 => exact ⟨f1, f2, f3, f4, f5, f6, f7⟩

theorem emptyBuffer_frame (cfg : HtmlConfig) (rotp : Option RotParams) (hil : Bool)
    (st : RenderState) :
    (emptyBuffer cfg rotp hil st).1.hunkOff1 = st.hunkOff1 ∧
    (emptyBuffer cfg rotp hil st).1.hunkSize1 = st.hunkSize1 ∧
    (emptyBuffer cfg rotp hil st).1.hunkOff2 = st.hunkOff2 ∧
    (emptyBuffer cfg rotp hil st).1.hunkSize2 = st.hunkSize2 ∧
    ((emptyBuffer cfg rotp hil st).2 = none →
      (emptyBuffer cfg rotp hil st).1.buf = [] ∧
      (emptyBuffer cfg rotp hil st).1.addCpt = 0 ∧
      (emptyBuffer cfg rotp hil st).1.delCpt = 0) := by
  unfold emptyBuffer
  dsimp only
  generalize (if st.delCpt = 0 ∨ st.addCpt = 0 then st.buf else
      (List.range (if (st.buf.filterMap Prod.fst).length > (st.buf.filterMap Prod.snd).length
        then (st.buf.filterMap Prod.fst).length else (st.buf.filterMap Prod.snd).length)).map
        fun i => (some ((st.buf.filterMap Prod.fst).getD i []), some ((st.buf.filterMap Prod.snd).getD i []))) = ps
  obtain ⟨f1, f2, f3, f4, f5, f6, f7⟩ := outputLines_frame cfg rotp hil ps st
  cases he : outputLines cfg rotp hil st ps with
  | mk s1 e =>
    rw [he] at f1 f2 f3 f4 f5 f6 f7
    cases e with
    | none =>
      unfold rbind
      simp only [he]
      simp_all
    | some e2 =>
      unfold rbind
      simp only [he]
      simp_all

theorem emptyBuffer_sfOk (cfg : HtmlConfig) (hil : Bool) (st : RenderState)
    (h : st.rows < cfg.maxDiffBlockLines) : sfOk cfg (emptyBuffer cfg none hil st) := by
  unfold emptyBuffer
  dsimp only
  apply sfOk_rbind (outputLines_sfOk cfg hil _ st h)
  intro s hs
  exact hs

theorem noNewlineAttach_rows (st : RenderState) (l : List Char) :
    (noNewlineAttach st l).rows = st.rows ∧ (noNewlineAttach st l).hunkSize1 = st.hunkSize1 ∧
    (noNewlineAttach st l).hunkSize2 = st.hunkSize2 := by
  unfold noNewlineAttach
  repeat' split
  all_goals simp

theorem scanLine_sfOk (cfg : HtmlConfig) (hil : Bool) (st : RenderState) (l : List Char)
    (h : st.rows < cfg.maxDiffBlockLines) : sfOk cfg (scanLine cfg none hil st l) := by
  unfold scanLine
  by_cases h1 : "--- ".data.isPrefixOf l
  · rw [if_pos h1]
    exact emptyBuffer_sfOk cfg hil st h
  rw [if_neg h1]
  by_cases h2 : "+++ ".data.isPrefixOf l
  · rw [if_pos h2]
    exact emptyBuffer_sfOk cfg hil st h
  rw [if_neg h2]
  cases hph : parseHunkHeader l with
  | some q =>
    dsimp only
    apply sfOk_rbind (emptyBuffer_sfOk cfg hil st h)
    intro s hs
    exact outputHunk_sfOk cfg _ (by simpa using hs)
  | none =>
    dsimp only
    apply sfOk_rbind
    · by_cases hbr : l.head? = some '['
      · rw [if_pos hbr]
        exact sfOk_rbind (emptyBuffer_sfOk cfg hil st h) (fun s hs => splWrite_sfOk cfg s _ false hs)
      · rw [if_neg hbr]
        exact h
    · intro s hs
      by_cases hnn : "\\ No newline".data.isPrefixOf l
      · rw [if_pos hnn]
        show sfOk cfg (noNewlineAttach s l, none)
        have hr := (noNewlineAttach_rows s l).1
        unfold sfOk
        dsimp only
        omega
      rw [if_neg hnn]
      by_cases hex : s.hunkSize1 ≤ 0 ∧ s.hunkSize2 ≤ 0
      · rw [if_pos hex]
        exact emptyBuffer_sfOk cfg hil s hs
      rw [if_neg hex]
      cases hpl : plusLinesRemoved l with
      | some n =>
        show sfOk cfg _
        unfold sfOk
        dsimp only
        simpa using hs
      | none =>
        dsimp only
        by_cases hplus : l.head? = some '+'
        · rw [if_pos hplus]
          show sfOk cfg _
          unfold sfOk
          dsimp only
          simpa using hs
        rw [if_neg hplus]
        cases hml : minusLinesRemoved l with
        | some n =>
          show sfOk cfg _
          unfold sfOk
          dsimp only
          simpa using hs
        | none =>
          dsimp only
          by_cases hminus : l.head? = some '-'
          · rw [if_pos hminus]
            show sfOk cfg _
            unfold sfOk
            dsimp only
            simpa using hs
          rw [if_neg hminus]
          by_cases hctx : l.head? = some ' ' ∧ s.hunkSize1 ≠ 0 ∧ s.hunkSize2 ≠ 0
          · rw [if_pos hctx]
            apply sfOk_rbind (emptyBuffer_sfOk cfg hil s hs)
            intro s2 hs2
            show sfOk cfg _
            unfold sfOk
            dsimp only
            simpa using hs2
          · rw [if_neg hctx]
            exact emptyBuffer_sfOk cfg hil s hs

theorem scanAll_sfOk (cfg : HtmlConfig) (hil : Bool) :
    ∀ (ls : List (List Char)) (st : RenderState) (bp : Nat),
      st.rows < cfg.maxDiffBlockLines →
      sfOk cfg ((scanAll cfg none hil ls st bp).1, (scanAll cfg none hil ls st bp).2.2) := by
  intro ls
  induction ls with
  | nil => intro st bp h; exact h
  | cons l rest ih =>
    intro st bp h
    unfold scanAll
    have hs := scanLine_sfOk cfg hil st l h
    cases he : scanLine cfg none hil st l with
    | mk s1 e =>
      rw [he] at hs
      cases e with
      | none => exact ih s1 _ hs
      | some e2 => exact hs

theorem splWrite_output (cfg : HtmlConfig) (st : RenderState) (s : String) (force : Bool) :
    (splWrite cfg st s force).1.output = st.output ++ [s] := by
  unfold splWrite
  split_ifs <;> simp [limitedPrintFunc, recordingPrintFunc]

theorem splWrite_rows (cfg : HtmlConfig) (st : RenderState) (s : String) (force : Bool) :
    (splWrite cfg st s force).1.rows = st.rows :=
  (splWrite_sinkStep cfg st s force).2.1

theorem outputUnifiedDiffTable_single_spec (cfg : HtmlConfig) (hil : Bool) (ud : List Char)
    (st : RenderState) (h0 : st.rows < cfg.maxDiffBlockLines) :
    ((outputUnifiedDiffTable cfg none hil ud st).2 = TableOutcome.truncated →
      (outputUnifiedDiffTable cfg none hil ud st).1.rows = cfg.maxDiffBlockLines ∧
      ∃ pre bl, (outputUnifiedDiffTable cfg none hil ud st).1.output =
        pre ++ [blockLimitErrorRow bl ud.length, "</table>"]) ∧
    ((outputUnifiedDiffTable cfg none hil ud st).2 = TableOutcome.completed →
      (outputUnifiedDiffTable cfg none hil ud st).1.rows < cfg.maxDiffBlockLines) := by
  unfold outputUnifiedDiffTable
  cases hw : splWrite cfg st udTableHeaderStr false with
  | mk s0 e0 =>
    cases e0 with
    | some e =>
      constructor <;> intro hc <;> simp at hc
    | none =>
      dsimp only
      have hs0rows : s0.rows = st.rows := by
        have hh := splWrite_rows cfg st udTableHeaderStr false
        rw [hw] at hh
        exact hh
      have h0' : s0.rows < cfg.maxDiffBlockLines := by omega
      have hloop := scanAll_sfOk cfg hil (splitLines ud) s0 0 h0'
      cases hr : scanAll cfg none hil (splitLines ud) s0 0 with
      | mk s1 q =>
        rw [hr] at hloop
        cases q with
        | mk bp e =>
          cases e with
          | none =>
            dsimp only
            have hloop' : s1.rows < cfg.maxDiffBlockLines := hloop
            have heb := emptyBuffer_sfOk cfg hil s1 hloop'
            cases heb2 : emptyBuffer cfg none hil s1 with
            | mk s2 e2 =>
              rw [heb2] at heb
              cases e2 with
              | none =>
                dsimp only
                constructor
                · intro hc
                  simp at hc
                · intro _
                  have hh := splWrite_rows cfg s2 "</table>" true
                  have heb' : s2.rows < cfg.maxDiffBlockLines := heb
                  omega
              | some e2' =>
                cases e2' with
                | blockLimit =>
                  dsimp only
                  constructor
                  · intro _
                    have heb' : s2.rows = cfg.maxDiffBlockLines := heb
                    have hh1 := splWrite_rows cfg s2
                      (blockLimitErrorRow ((ud.length : Int) - (bp : Int)) (ud.length : Int)) true
                    have hh2 := splWrite_rows cfg
                      (splWrite cfg s2 (blockLimitErrorRow ((ud.length : Int) - (bp : Int)) (ud.length : Int)) true).1
                      "</table>" true
                    have ho1 := splWrite_output cfg s2
                      (blockLimitErrorRow ((ud.length : Int) - (bp : Int)) (ud.length : Int)) true
                    have ho2 := splWrite_output cfg
                      (splWrite cfg s2 (blockLimitErrorRow ((ud.length : Int) - (bp : Int)) (ud.length : Int)) true).1
                      "</table>" true
                    refine ⟨by omega, s2.output, (ud.length : Int) - (bp : Int), ?_⟩
                    rw [ho2, ho1]
                    simp
                  · intro hc
                    simp at hc
                | printLimit =>
                  dsimp only
                  have hne : ¬ hadEnteredChild (none : Option RotParams) s2 := by
                    simp [hadEnteredChild]
                  rw [if_neg hne]
                  constructor <;> intro hc <;> simp at hc
          | some e1 =>
            cases e1 with
            | blockLimit =>
              dsimp only
              constructor
              · intro _
                have hs1' : s1.rows = cfg.maxDiffBlockLines := hloop
                have hh1 := splWrite_rows cfg s1
                  (blockLimitErrorRow ((ud.length : Int) - (bp : Int)) (ud.length : Int)) true
                have hh2 := splWrite_rows cfg
                  (splWrite cfg s1 (blockLimitErrorRow ((ud.length : Int) - (bp : Int)) (ud.length : Int)) true).1
                  "</table>" true
                have ho1 := splWrite_output cfg s1
                  (blockLimitErrorRow ((ud.length : Int) - (bp : Int)) (ud.length : Int)) true
                have ho2 := splWrite_output cfg
                  (splWrite cfg s1 (blockLimitErrorRow ((ud.length : Int) - (bp : Int)) (ud.length : Int)) true).1
                  "</table>" true
                refine ⟨by omega, s1.output, (ud.length : Int) - (bp : Int), ?_⟩
                rw [ho2, ho1]
                simp
              · intro hc
                simp at hc
            | printLimit =>
              dsimp only
              have hne : ¬ hadEnteredChild (none : Option RotParams) s1 := by
                simp [hadEnteredChild]
              rw [if_neg hne]
              constructor <;> intro hc <;> simp at hc
/-- Claim C1: in single-file mode, `DiffBlockLimitReached` is raised
as soon as the count of completed rows reaches `max_diff_block_lines`
(so a truncated render has exactly `max_diff_block_lines` rows, and a
completed one stayed below the cap); it is handled locally: one
error row carrying the remaining/total byte counts of the diff is
written, the table is closed, and the renderer returns truncated.
Concretely, with `max_diff_block_lines = 2` and a diff producing 5
rows, exactly 2 rows are emitted, and at document level the outer
document continues and the footer is emitted. -/
theorem claim_C1_block_limit :
    (∀ (cfg : HtmlConfig) (hil : Bool) (ud : String) (pc : Nat),
       1 ≤ cfg.maxDiffBlockLines →
       ((renderTable cfg none hil ud pc).2 = TableOutcome.truncated →
         (renderTable cfg none hil ud pc).1.rows = cfg.maxDiffBlockLines ∧
         ∃ pre bl, (renderTable cfg none hil ud pc).1.output =
           pre ++ [blockLimitErrorRow bl ud.length, "</table>"]) ∧
       ((renderTable cfg none hil ud pc).2 = TableOutcome.completed →
         (renderTable cfg none hil ud pc).1.rows < cfg.maxDiffBlockLines)) ∧
    ((renderTable ⟨1000000, 1000000, 2, 1000000, 1000⟩ none false
        "@@ -1,4 +1,4 @@\n a\n b\n c\n d\n" 0).2 = TableOutcome.truncated ∧
     (renderTable ⟨1000000, 1000000, 2, 1000000, 1000⟩ none false
        "@@ -1,4 +1,4 @@\n a\n b\n c\n d\n" 0).1.rows = 2 ∧
     blockLimitErrorRow 6 28 ∈ (renderTable ⟨1000000, 1000000, 2, 1000000, 1000⟩ none false
        "@@ -1,4 +1,4 @@\n a\n b\n c\n d\n" 0).1.output ∧
     (renderTable ⟨1000000, 1000000, 2, 1000000, 1000⟩ none false
        "@@ -1,4 +1,4 @@\n a\n b\n c\n d\n" 0).1.output.getLast? = some "</table>") ∧
    ((outputHtml ⟨1000000, 1000000, 2, 1000000, 1000⟩ "HEADERTEXT" "FOOTERTEXT"
        (Difference.node "a" "a" [] (some "@@ -1,4 +1,4 @@\n a\n b\n c\n d\n") false [])).2 = none ∧
     blockLimitErrorRow 6 28 ∈ (outputHtml ⟨1000000, 1000000, 2, 1000000, 1000⟩ "HEADERTEXT" "FOOTERTEXT"
        (Difference.node "a" "a" [] (some "@@ -1,4 +1,4 @@\n a\n b\n c\n d\n") false [])).1.output ∧
     (outputHtml ⟨1000000, 1000000, 2, 1000000, 1000⟩ "HEADERTEXT" "FOOTERTEXT"
        (Difference.node "a" "a" [] (some "@@ -1,4 +1,4 @@\n a\n b\n c\n d\n") false [])).1.output.getLast?
       = some "FOOTERTEXT") := by
  refine ⟨?_, by decide, by decide⟩
  intro cfg hil ud pc hmax
  exact outputUnifiedDiffTable_single_spec cfg hil ud.data
    { initRenderState with parentChars := pc } (by simp [initRenderState]; omega)

/-- Witness for claim C1 at the concrete five-row diff of the claim. -/
theorem claim_C1_witness :
    (renderTable ⟨1000000, 1000000, 2, 1000000, 1000⟩ none false
        "@@ -1,4 +1,4 @@\n a\n b\n c\n d\n" 0).1.rows = 2 ∧
    ∃ pre bl, (renderTable ⟨1000000, 1000000, 2, 1000000, 1000⟩ none false
        "@@ -1,4 +1,4 @@\n a\n b\n c\n d\n" 0).1.output =
      pre ++ [blockLimitErrorRow bl ("@@ -1,4 +1,4 @@\n a\n b\n c\n d\n" : String).length, "</table>"] :=
  (claim_C1_block_limit.1 ⟨1000000, 1000000, 2, 1000000, 1000⟩ false
    "@@ -1,4 +1,4 @@\n a\n b\n c\n d\n" 0 (by decide)).1 (by decide)

/-- Claim C2: every write through the limited primary print function
raises `PrintLimitReached` when `force` is false and the cumulative
character count (including the current write) exceeds
`max_report_size`, and never raises on a force-flagged write; the
text is printed in both cases (the write precedes the check). The
source actually raises already at equality (`>=`), which subsumes
the claimed strict "exceed". -/
theorem claim_C2_limited_print (maxSize charCount : Nat) (s : String) :
    (charCount + s.length > maxSize →
      (limitedPrintFunc maxSize charCount s false).raised = true) ∧
    (limitedPrintFunc maxSize charCount s true).raised = false ∧
    (limitedPrintFunc maxSize charCount s false).printed = s ∧
    (limitedPrintFunc maxSize charCount s true).printed = s := by
  refine ⟨?_, ?_, rfl, rfl⟩
  · intro h
    simp only [limitedPrintFunc, Bool.not_false, Bool.true_and, decide_eq_true_eq]
    omega
  · simp [limitedPrintFunc]

/-- Witness for claim C2 with the limit crossed by a non-forced
write and bypassed by a forced one. -/
theorem claim_C2_witness :
    (limitedPrintFunc 5 3 "abc" false).raised = true ∧
    (limitedPrintFunc 5 3 "abc" true).raised = false :=
  ⟨(claim_C2_limited_print 5 3 "abc").1 (by decide),
   (claim_C2_limited_print 5 3 "abc").2.1⟩

/-- Claim C8 (behaviour at the failing input): a bracket-prefixed
line is emitted as the bare fragment `<td colspan="2">…</td>` — no
surrounding `<tr>`, spanning 2 of the 4 columns, not counted as a
row by the row governor — instead of the complete full-width table
row the spec requires. The render completes normally otherwise. -/
theorem claim_C8_bracket_line :
    (renderTable ⟨1000000, 1000000, 1000000, 1000000, 1000⟩ none false "[ hello ]" 0).1.output =
      [udTableHeaderStr, "<td colspan=\"2\">[ hello ]</td>\n", "</table>"] ∧
    (renderTable ⟨1000000, 1000000, 1000000, 1000000, 1000⟩ none false "[ hello ]" 0).1.rows = 0 ∧
    (renderTable ⟨1000000, 1000000, 1000000, 1000000, 1000⟩ none false "[ hello ]" 0).2 =
      TableOutcome.completed := by
  decide

/-- Claim C10 (amended): `PrintLimitReached` can only originate from
the limited primary print function, i.e. from a write performed
while `current_page = 0`; on a child page every write goes through
the recording print function and never raises. (The claimed
assertion itself can fail — see the counterexample — because the
row accounting in the `finally` block can rotate onto a child page
after the raise and before the handler runs.) -/
theorem claim_C10_print_limit_origin (cfg : HtmlConfig) (st : RenderState) (s : String) (force : Bool) :
    ((splWrite cfg st s force).2 = some RenderExc.printLimit → st.currentPage = 0) ∧
    (st.currentPage ≠ 0 → (splWrite cfg st s force).2 = none) ∧
    (∀ bw : Nat, (recordingPrintFunc bw s force).1 = s) :=
  ⟨splWrite_printLimit_page cfg st s force, splWrite_child_ok cfg st s force, fun _ => rfl⟩

/-- Witness for the amended claim C10: a child-page write returns no
exception, and a parent-page write that crosses a zero budget does
raise with the page still at zero. -/
theorem claim_C10_witness :
    (splWrite ⟨1000000, 1000000, 10, 10, 10⟩ { initRenderState with currentPage := 1 } "x" false).2 = none ∧
    initRenderState.currentPage = 0 :=
  ⟨(claim_C10_print_limit_origin ⟨1000000, 1000000, 10, 10, 10⟩
      { initRenderState with currentPage := 1 } "x" false).2.1 (by decide),
   (claim_C10_print_limit_origin ⟨0, 0, 0, 0, 0⟩ initRenderState "x" false).1 (by decide)⟩

/-- Counterexample for claim C10 as stated: in directory mode with
`max_diff_block_lines_parent = 2` and a report budget crossed by a
cell write of the second row, the cell write raises
`PrintLimitReached` on the parent page, the `finally` row accounting
of the same row rotates onto child page 1, and the handler of
`output_unified_diff_table` then catches `PrintLimitReached` with a
child page active: the assertion `not spl_had_entered_child()`
fails. -/
theorem claim_C10_counterexample :
    (renderTable ⟨280, 1000000, 1000000, 2, 1000000⟩ (some ⟨"m", "HDR", "FTR"⟩) false
        "@@ -1,1 +1,1 @@\n-x\n" 0).2 = TableOutcome.assertionFailed ∧
    (renderTable ⟨280, 1000000, 1000000, 2, 1000000⟩ (some ⟨"m", "HDR", "FTR"⟩) false
        "@@ -1,1 +1,1 @@\n-x\n" 0).1.currentPage = 1 := by
  decide

theorem lineAdvance_ge (orig : Option (List Char)) (n : Nat) : n ≤ lineAdvance orig n := by
  unfold lineAdvance
  cases orig with
  | none => exact Nat.le_refl n
  | some v =>
    dsimp only
    split_ifs with h
    · exact Nat.le_refl n
    · cases linesRemovedN v <;> dsimp only <;> omega

/-- Claim C6 (amended): within each emitted row (`output_line`), the
counters `line1` and `line2` never decrease; when the row completes
without an exception each side advances its counter per the rule —
by the captured N for a `[ N lines removed ]` placeholder, by 1 for
any other present non-empty side, unchanged for an absent or empty
side (`lineAdvance`). The original claim's render-wide monotonicity
fails at hunk headers, which reset the counters to the new hunk's
offsets (see the counterexample). -/
theorem claim_C6_row_advancement (cfg : HtmlConfig) (rotp : Option RotParams) (hil : Bool)
    (st : RenderState) (os1 os2 : Option (List Char)) :
    st.line1 ≤ (outputLine cfg rotp hil st os1 os2).1.line1 ∧
    st.line2 ≤ (outputLine cfg rotp hil st os1 os2).1.line2 ∧
    ((outputLine cfg rotp hil st os1 os2).2 = none →
      (outputLine cfg rotp hil st os1 os2).1.line1 = lineAdvance os1 st.line1 ∧
      (outputLine cfg rotp hil st os1 os2).1.line2 = lineAdvance os2 st.line2) := by
  obtain ⟨_, _, _, _, _, _, _, _, hnone, hsome, _⟩ := outputLine_spec cfg rotp hil st os1 os2
  refine ⟨?_, ?_, hnone⟩
  · cases he : (outputLine cfg rotp hil st os1 os2).2 with
    | none =>
      rw [(hnone he).1]
      exact lineAdvance_ge os1 st.line1
    | some e =>
      rw [(hsome (by simp [he])).1]
  · cases he : (outputLine cfg rotp hil st os1 os2).2 with
    | none =>
      rw [(hnone he).2]
      exact lineAdvance_ge os2 st.line2
    | some e =>
      rw [(hsome (by simp [he])).2]

/-- Witness for the amended claim C6 on a concrete completed row. -/
theorem claim_C6_witness :
    (outputLine ⟨1000000, 1000000, 1000000, 1000000, 1000⟩ none false
        { initRenderState with line1 := 4, line2 := 7 } (some "[ 5 lines removed ]".data) none).1.line1 = 9 ∧
    (outputLine ⟨1000000, 1000000, 1000000, 1000000, 1000⟩ none false
        { initRenderState with line1 := 4, line2 := 7 } (some "[ 5 lines removed ]".data) none).1.line2 = 7 :=
  (claim_C6_row_advancement ⟨1000000, 1000000, 1000000, 1000000, 1000⟩ none false
      { initRenderState with line1 := 4, line2 := 7 } (some "[ 5 lines removed ]".data) none).2.2 (by decide)

/-- Counterexample for claim C6 as stated: rendering the diff
"@@ -9,1 +9,1 @@", " a", "@@ -1,1 +1,1 @@" in order drives `line1`
from 9 to 10 (when the buffered context row is flushed by the second
hunk header) and then down to 1 (the header's reset) — the counter
decreases across a single unified-diff render. -/
theorem claim_C6_counterexample :
    (scanAll ⟨1000000, 1000000, 1000000, 1000000, 1000⟩ none false
        ["@@ -9,1 +9,1 @@".data, " a".data] initRenderState 0).1.line1 = 9 ∧
    (emptyBuffer ⟨1000000, 1000000, 1000000, 1000000, 1000⟩ none false
        (scanAll ⟨1000000, 1000000, 1000000, 1000000, 1000⟩ none false
          ["@@ -9,1 +9,1 @@".data, " a".data] initRenderState 0).1).1.line1 = 10 ∧
    (scanAll ⟨1000000, 1000000, 1000000, 1000000, 1000⟩ none false
        ["@@ -9,1 +9,1 @@".data, " a".data, "@@ -1,1 +1,1 @@".data] initRenderState 0).1.line1 = 1 := by
  decide

theorem scanLine_space (cfg : HtmlConfig) (rotp : Option RotParams) (hil : Bool)
    (st : RenderState) (rest : List Char) :
    scanLine cfg rotp hil st (' ' :: rest) =
      (if st.hunkSize1 ≤ 0 ∧ st.hunkSize2 ≤ 0 then emptyBuffer cfg rotp hil st
       else if st.hunkSize1 ≠ 0 ∧ st.hunkSize2 ≠ 0 then
         rbind (emptyBuffer cfg rotp hil st) fun s =>
           ({ s with hunkSize1 := s.hunkSize1 - 1, hunkSize2 := s.hunkSize2 - 1,
                     buf := s.buf ++ [(some rest, some rest)] }, none)
       else emptyBuffer cfg rotp hil st) := by
  unfold scanLine
  rw [if_neg (by simp [List.isPrefixOf]), if_neg (by simp [List.isPrefixOf])]
  have hph : parseHunkHeader (' ' :: rest) = none := rfl
  rw [hph]
  dsimp only
  rw [if_neg (by simp)]
  dsimp only [rbind]
  rw [if_neg (by simp [List.isPrefixOf])]
  by_cases hex : st.hunkSize1 ≤ 0 ∧ st.hunkSize2 ≤ 0
  · rw [if_pos hex, if_pos hex]
  · rw [if_neg hex, if_neg hex]
    have hpl : plusLinesRemoved (' ' :: rest) = none := rfl
    rw [hpl]
    dsimp only
    rw [if_neg (by simp)]
    have hml : minusLinesRemoved (' ' :: rest) = none := rfl
    rw [hml]
    dsimp only
    rw [if_neg (by simp)]
    by_cases hctx : st.hunkSize1 ≠ 0 ∧ st.hunkSize2 ≠ 0
    · rw [if_pos (show (' ' :: rest).head? = some ' ' ∧ st.hunkSize1 ≠ 0 ∧ st.hunkSize2 ≠ 0 from
          ⟨rfl, hctx.1, hctx.2⟩), if_pos hctx]
      rfl
    · rw [if_neg (fun hc => hctx ⟨hc.2.1, hc.2.2⟩), if_neg hctx]

/-- Claim C7 (amended): for a scanned line beginning with a space,
the code treats a side counter as active when it is nonzero — not
when it is positive. With both counters nonzero (and not both
non-positive, that case having been flushed-and-ignored earlier) the
line is consumed as a context line: the pairing buffer is flushed,
both counters are decremented by one — even below zero — and the
pair (line-without-space, line-without-space) is buffered. With one
counter equal to zero, or with both non-positive, the buffer is
flushed and the line is ignored. A negative counter (left by an
oversized placeholder) still counts as active, which refutes the
original claim's "either counter exhausted → ignored" (see the
counterexample). -/
theorem claim_C7_context_line (cfg : HtmlConfig) (rotp : Option RotParams) (hil : Bool)
    (st : RenderState) (rest : List Char) :
    (¬(st.hunkSize1 ≤ 0 ∧ st.hunkSize2 ≤ 0) → st.hunkSize1 ≠ 0 → st.hunkSize2 ≠ 0 →
      (scanLine cfg rotp hil st (' ' :: rest)).2 = none →
      (scanLine cfg rotp hil st (' ' :: rest)).1.buf = [(some rest, some rest)] ∧
      (scanLine cfg rotp hil st (' ' :: rest)).1.hunkSize1 = st.hunkSize1 - 1 ∧
      (scanLine cfg rotp hil st (' ' :: rest)).1.hunkSize2 = st.hunkSize2 - 1) ∧
    (¬(st.hunkSize1 ≤ 0 ∧ st.hunkSize2 ≤ 0) → (st.hunkSize1 = 0 ∨ st.hunkSize2 = 0) →
      (scanLine cfg rotp hil st (' ' :: rest)).2 = none →
      (scanLine cfg rotp hil st (' ' :: rest)).1.buf = [] ∧
      (scanLine cfg rotp hil st (' ' :: rest)).1.hunkSize1 = st.hunkSize1 ∧
      (scanLine cfg rotp hil st (' ' :: rest)).1.hunkSize2 = st.hunkSize2) ∧
    (st.hunkSize1 ≤ 0 ∧ st.hunkSize2 ≤ 0 →
      (scanLine cfg rotp hil st (' ' :: rest)).2 = none →
      (scanLine cfg rotp hil st (' ' :: rest)).1.buf = [] ∧
      (scanLine cfg rotp hil st (' ' :: rest)).1.hunkSize1 = st.hunkSize1 ∧
      (scanLine cfg rotp hil st (' ' :: rest)).1.hunkSize2 = st.hunkSize2) := by
  obtain ⟨e1, e2, e3, e4, e5⟩ := emptyBuffer_frame cfg rotp hil st
  refine ⟨?_, ?_, ?_⟩
  · intro hnex h1 h2 hok
    rw [scanLine_space, if_neg hnex, if_pos ⟨h1, h2⟩] at hok ⊢
    cases heb : emptyBuffer cfg rotp hil st with
    | mk s1 e =>
      rw [heb] at e2 e4 e5
      cases e with
      | none =>
        obtain ⟨hb, _, _⟩ := e5 rfl
        have hb' : s1.buf = [] := hb
        unfold rbind
        simp only [heb]
        exact ⟨by simp [hb'], by rw [e2], by rw [e4]⟩
      | some ex =>
        unfold rbind at hok
        simp only [heb] at hok
        exact absurd hok (by simp)
  · intro hnex hzero hok
    have hnctx : ¬(st.hunkSize1 ≠ 0 ∧ st.hunkSize2 ≠ 0) := by
      rcases hzero with hz | hz
      · exact fun hc => hc.1 hz
      · exact fun hc => hc.2 hz
    rw [scanLine_space, if_neg hnex, if_neg hnctx] at hok ⊢
    cases heb : emptyBuffer cfg rotp hil st with
    | mk s1 e =>
      rw [heb] at e2 e4 e5
      cases e with
      | none =>
        obtain ⟨hb, _, _⟩ := e5 rfl
        exact ⟨hb, e2, e4⟩
      | some ex => simp [heb] at hok
  · intro hex hok
    rw [scanLine_space, if_pos hex] at hok ⊢
    cases heb : emptyBuffer cfg rotp hil st with
    | mk s1 e =>
      rw [heb] at e2 e4 e5
      cases e with
      | none =>
        obtain ⟨hb, _, _⟩ := e5 rfl
        exact ⟨hb, e2, e4⟩
      | some ex => simp [heb] at hok

/-- Witness for the amended claim C7: a context line consumed with a
negative second counter, and an ignored line with a zero counter. -/
theorem claim_C7_witness :
    ((scanLine ⟨1000000, 1000000, 1000000, 1000000, 1000⟩ none false
        { initRenderState with hunkSize1 := 2, hunkSize2 := -2 } " x".data).1.buf =
      [(some "x".data, some "x".data)] ∧
     (scanLine ⟨1000000, 1000000, 1000000, 1000000, 1000⟩ none false
        { initRenderState with hunkSize1 := 2, hunkSize2 := -2 } " x".data).1.hunkSize1 = 2 - 1 ∧
     (scanLine ⟨1000000, 1000000, 1000000, 1000000, 1000⟩ none false
        { initRenderState with hunkSize1 := 2, hunkSize2 := -2 } " x".data).1.hunkSize2 = -2 - 1) ∧
    ((scanLine ⟨1000000, 1000000, 1000000, 1000000, 1000⟩ none false
        { initRenderState with hunkSize1 := 2, hunkSize2 := 0 } " x".data).1.buf = [] ∧
     (scanLine ⟨1000000, 1000000, 1000000, 1000000, 1000⟩ none false
        { initRenderState with hunkSize1 := 2, hunkSize2 := 0 } " x".data).1.hunkSize1 = 2 ∧
     (scanLine ⟨1000000, 1000000, 1000000, 1000000, 1000⟩ none false
        { initRenderState with hunkSize1 := 2, hunkSize2 := 0 } " x".data).1.hunkSize2 = 0) :=
  ⟨(claim_C7_context_line ⟨1000000, 1000000, 1000000, 1000000, 1000⟩ none false
      { initRenderState with hunkSize1 := 2, hunkSize2 := -2 } "x".data).1
      (by decide) (by decide) (by decide) (by decide),
   (claim_C7_context_line ⟨1000000, 1000000, 1000000, 1000000, 1000⟩ none false
      { initRenderState with hunkSize1 := 2, hunkSize2 := 0 } "x".data).2.1
      (by decide) (by decide) (by decide)⟩

/-- Counterexample for claim C7 as stated: the scanner state reached
after "@@ -2,2 +1,1 @@" and "+[ 3 lines removed ]" has
`hunk_size2 = -2` (exhausted in the claim's sense); the next line
" x" is nevertheless consumed as a context line — the pair is
buffered and both counters are decremented — while the claim
requires it to be flushed and ignored with no state change. -/
theorem claim_C7_counterexample :
    ((scanAll ⟨1000000, 1000000, 1000000, 1000000, 1000⟩ none false
        ["@@ -2,2 +1,1 @@".data, "+[ 3 lines removed ]".data] initRenderState 0).1.hunkSize1 = 2 ∧
     (scanAll ⟨1000000, 1000000, 1000000, 1000000, 1000⟩ none false
        ["@@ -2,2 +1,1 @@".data, "+[ 3 lines removed ]".data] initRenderState 0).1.hunkSize2 = -2) ∧
    ((scanLine ⟨1000000, 1000000, 1000000, 1000000, 1000⟩ none false
        (scanAll ⟨1000000, 1000000, 1000000, 1000000, 1000⟩ none false
          ["@@ -2,2 +1,1 @@".data, "+[ 3 lines removed ]".data] initRenderState 0).1 " x".data).1.buf =
      [(some "x".data, some "x".data)] ∧
     (scanLine ⟨1000000, 1000000, 1000000, 1000000, 1000⟩ none false
        (scanAll ⟨1000000, 1000000, 1000000, 1000000, 1000⟩ none false
          ["@@ -2,2 +1,1 @@".data, "+[ 3 lines removed ]".data] initRenderState 0).1 " x".data).1.hunkSize1 = 1 ∧
     (scanLine ⟨1000000, 1000000, 1000000, 1000000, 1000⟩ none false
        (scanAll ⟨1000000, 1000000, 1000000, 1000000, 1000⟩ none false
          ["@@ -2,2 +1,1 @@".data, "+[ 3 lines removed ]".data] initRenderState 0).1 " x".data).1.hunkSize2 = -3) := by
  decide

end DiffoscopeHtml
